import Mathlib

/-!
# RUDP_API.c : a shallow embedding

The functions of `src/RUDP_API.c` are embedded as pure functions.  The socket,
the clock and the allocator are the environment: every outcome the C code reads
from them (a `sendto` or `malloc` that fails, the packets `recvfrom` yields while
a timing loop is open) is an explicit input, and everything the code does to
them (packets handed to a successful `sendto`, `set_timeout` calls, `close`) is
an explicit output.

`RUDP_API.h` is not among the sources, so `MAX_SIZE` is a parameter and
`RUDP_Packet` is modelled by its fields as the code uses them
(`sequalNum`, `flags.isData`, `flags.isSyn`, `flags.ack`, `flags.fin`, `length`,
`checksum`, `data`).  A packet is a value of that structure, and `rudp_receive`
takes the packet as it stands in `rudp` once `recvfrom` has returned.  What the
`recvfrom` of line 105, which is given `sizeof(RUDP_Packet) - 1` bytes of room,
makes of a datagram that was sent is `recvfrom_short`, which follows the layout
of section 6 of the specification.
-/

namespace RUDP

/-- One `char` of a buffer. -/
abbrev Byte := Fin 256

/-- The flag bits of a packet (`rudp->flags`). -/
structure Flags where
  isData : Bool
  isSyn : Bool
  ack : Bool
  fin : Bool
deriving DecidableEq

/-- The packet structure `RUDP_Packet`; `data` is the region of `MAX_SIZE` bytes. -/
structure RUDP_Packet where
  sequalNum : Int
  flags : Flags
  length : Int
  checksum : Int
  data : List Byte
deriving DecidableEq

/-- The state of a packet after `memset(rudp, 0, sizeof(RUDP_Packet))`. -/
def memset_zero (MAX_SIZE : Nat) : RUDP_Packet :=
  { sequalNum := 0
    flags := { isData := false, isSyn := false, ack := false, fin := false }
    length := 0
    checksum := 0
    data := List.replicate MAX_SIZE 0 }

/-- The region `dst` after `memcpy(dst, src, n)`: its first `n` bytes come from `src`. -/
def memcpy (dst src : List Byte) (n : Nat) : List Byte :=
  src.take n ++ dst.drop n

/-- Function `calculate_checksum`, lines 357-362: `sum = 0; sum += rudp->length`. -/
def calculate_checksum (rudp : RUDP_Packet) : Int :=
  0 + rudp.length

/-! ## wait_ack -/

/-- The test of line 371 on one `recvfrom` outcome (`none`: `recv_res == -1`). -/
def ack_matches (seq_num : Int) : Option RUDP_Packet → Bool
  | none => false
  | some ack => ack.flags.ack == true && ack.sequalNum == seq_num

/-- Function `wait_ack`, lines 365-378.  `window` lists the outcomes of the `recvfrom`
calls made while the clock condition of line 367 holds. -/
def wait_ack (seq_num : Int) : List (Option RUDP_Packet) → Int
  | [] => 0
  | r :: window => if ack_matches seq_num r then 1 else wait_ack seq_num window

/-- The packet on which `wait_ack` returns 1 (a ghost of the model: the C
function only returns the integer). -/
def wait_ack_packet (seq_num : Int) : List (Option RUDP_Packet) → Option RUDP_Packet
  | [] => none
  | r :: window =>
    if ack_matches seq_num r then r else wait_ack_packet seq_num window

/-! ## rudp_send -/

/-- One pass of a `do { sendto } while (wait_ack(...) <= 0)` loop as the
environment decides it: whether `sendto` succeeds, and what `wait_ack` then
receives in its window. -/
structure Round where
  sendto_ok : Bool
  window : List (Option RUDP_Packet)
deriving DecidableEq

/-- What a sender does to the socket, in order. -/
inductive Event where
  /-- A `sendto` that succeeded, with the packet it was given. -/
  | tx (p : RUDP_Packet)
  /-- A `wait_ack` that returned 1, with the received packet that matched. -/
  | acked (a : RUDP_Packet)
deriving DecidableEq

/-- How a retransmission loop ended. -/
inductive Outcome where
  /-- The loop was left because `wait_ack` returned 1. -/
  | done
  /-- A `sendto` returned -1 (the function returns -1). -/
  | failed
  /-- The scripted rounds ran out with the loop still retransmitting. -/
  | running
deriving DecidableEq

/-- The events logged when `wait_ack(seq_num)` returns 1 on `window`. -/
def ack_event (seq_num : Int) (window : List (Option RUDP_Packet)) : List Event :=
  match wait_ack_packet seq_num window with
  | some a => [Event.acked a]
  | none => []

/-- The loop `do { sendto(rudp) } while (wait_ack(socket, seq_num, clock(), 1) <= 0)`
of lines 57-64, 77-84 and 342-349, run against the scripted rounds. -/
def send_until_ack (rudp : RUDP_Packet) (seq_num : Int) :
    List Round → List Event × Outcome × List Round
  | [] => ([], Outcome.running, [])
  | r :: env =>
    if r.sendto_ok = false then ([], Outcome.failed, env)
    else if wait_ack seq_num r.window ≤ 0 then
      let rest := send_until_ack rudp seq_num env
      (Event.tx rudp :: rest.1, rest.2.1, rest.2.2)
    else (Event.tx rudp :: ack_event seq_num r.window, Outcome.done, env)

/-- The packet built by the loop body, lines 46-54, for index `i`. -/
def full_chunk (MAX_SIZE : Nat) (data : List Byte) (packets last_pack_size : Nat)
    (i : Nat) : RUDP_Packet :=
  let rudp := memset_zero MAX_SIZE
  let rudp := { rudp with sequalNum := (i : Int) }
  let rudp := { rudp with flags := { rudp.flags with isData := true } }
  let rudp :=
    if (i : Int) = (packets : Int) - 1 ∧ last_pack_size = 0 then
      { rudp with flags := { rudp.flags with fin := true } }
    else rudp
  let rudp := { rudp with data := memcpy rudp.data (data.drop (i * MAX_SIZE)) MAX_SIZE }
  let rudp := { rudp with length := (MAX_SIZE : Int) }
  { rudp with checksum := calculate_checksum rudp }

/-- The packet built for the remainder, lines 69-75. -/
def last_chunk (MAX_SIZE : Nat) (data : List Byte) (packets last_pack_size : Nat) :
    RUDP_Packet :=
  let rudp := memset_zero MAX_SIZE
  let rudp := { rudp with sequalNum := (packets : Int) }
  let rudp := { rudp with flags := { rudp.flags with isData := true } }
  let rudp := { rudp with flags := { rudp.flags with fin := true } }
  let rudp :=
    { rudp with data := memcpy rudp.data (data.drop (packets * MAX_SIZE)) last_pack_size }
  let rudp := { rudp with length := (last_pack_size : Int) }
  { rudp with checksum := calculate_checksum rudp }

/-- The loop `for (int i = 0; i < packets; i++)` of lines 45-65, with `todo`
iterations left (`todo = packets - i`). -/
def send_chunks (MAX_SIZE : Nat) (data : List Byte) (packets last_pack_size : Nat) :
    Nat → Nat → List Round → List Event × Outcome × List Round
  | 0, _, env => ([], Outcome.done, env)
  | todo + 1, i, env =>
    match send_until_ack (full_chunk MAX_SIZE data packets last_pack_size i) (i : Int) env with
    | (ev, Outcome.done, env1) =>
      let rest := send_chunks MAX_SIZE data packets last_pack_size todo (i + 1) env1
      (ev ++ rest.1, rest.2.1, rest.2.2)
    | (ev, out, env1) => (ev, out, env1)

/-- The result of a sender: what it did to the socket and the value it returned
(`none`: it was still retransmitting when the scripted rounds ran out). -/
structure SendResult where
  events : List Event
  ret : Option Int
deriving DecidableEq

/-- The return of a function whose last loop ended with `out`. -/
def ret_of (out : Outcome) (ok : Int) : Option Int :=
  match out with
  | Outcome.done => some ok
  | Outcome.failed => some (-1)
  | Outcome.running => none

/-- Function `rudp_send`, lines 32-91, for a buffer `data` of `size = data.length` bytes.
`malloc_ok` is the outcome of line 38, `env` the rounds of the retransmission
loops in the order they are run. -/
def rudp_send (MAX_SIZE : Nat) (malloc_ok : Bool) (data : List Byte) (env : List Round) :
    SendResult :=
  let size := data.length
  let packets := size / MAX_SIZE
  let last_pack_size := size % MAX_SIZE
  if malloc_ok = false then { events := [], ret := some (-1) }
  else
    match send_chunks MAX_SIZE data packets last_pack_size packets 0 env with
    | (ev, Outcome.done, env1) =>
      if last_pack_size > 0 then
        let fin := send_until_ack (last_chunk MAX_SIZE data packets last_pack_size)
          (packets : Int) env1
        { events := ev ++ fin.1, ret := ret_of fin.2.1 1 }
      else { events := ev, ret := some 1 }
    | (ev, out, _) => { events := ev, ret := ret_of out 1 }

/-- The packets of the successful `sendto` calls of a trace, in order. -/
def transmitted : List Event → List RUDP_Packet
  | [] => []
  | Event.tx p :: ev => p :: transmitted ev
  | Event.acked _ :: ev => transmitted ev

/-! ## send_ack and rudp_receive -/

/-- The acknowledgment built by `send_ack`, lines 387-390, for the packet `rudp`. -/
def ack_packet (MAX_SIZE : Nat) (rudp : RUDP_Packet) : RUDP_Packet :=
  let ack := memset_zero MAX_SIZE
  let ack := { ack with flags := { ack.flags with ack := true } }
  let ack := { ack with sequalNum := rudp.sequalNum }
  { ack with checksum := calculate_checksum ack }

/-- Function `send_ack`, lines 380-400: the return value and the packets transmitted.
`malloc_ok` is the outcome of line 382, `sendto_ok` that of line 392. -/
def send_ack (MAX_SIZE : Nat) (malloc_ok sendto_ok : Bool) (rudp : RUDP_Packet) :
    Int × List RUDP_Packet :=
  if malloc_ok = false then (-1, [])
  else
    let ack := ack_packet MAX_SIZE rudp
    if sendto_ok = false then (-1, []) else (1, [ack])

/-- One pass of the drain loop of lines 184-194: the outcome of `recvfrom`
(`none`: nothing was written into the zeroed packet) and, for the `send_ack` of
line 188, the outcomes of its `malloc` and `sendto`. -/
structure DrainStep where
  recvfrom : Option RUDP_Packet
  malloc_ack : Bool
  sendto_ack : Bool
deriving DecidableEq

/-- What one call of `rudp_receive` reads from its environment. -/
structure RecvEnv where
  /-- Line 97. -/
  malloc_rudp : Bool
  /-- Line 105: the packet in `rudp` afterwards, or `none` when it returns -1. -/
  recvfrom : Option RUDP_Packet
  /-- Line 382, in the `send_ack` of line 114. -/
  malloc_ack : Bool
  /-- Line 392, in the `send_ack` of line 114. -/
  sendto_ack : Bool
  /-- Lines 139 and 153. -/
  malloc_buffer : Bool
  /-- Line 178. -/
  malloc_drain : Bool
  /-- The passes of the loop of line 184 made before a second elapses with no FIN. -/
  drain : List DrainStep
deriving DecidableEq

/-- What one call of `rudp_receive` returns and does. -/
structure RecvResult where
  /-- The return value. -/
  ret : Int
  /-- The global `seq_number` after the call. -/
  seq_number : Int
  /-- The bytes stored through `*buffer` and the value stored in `*size`, if written. -/
  out : Option (List Byte × Int)
  /-- The packets handed to a successful `sendto`, in order. -/
  sent : List RUDP_Packet
  /-- The arguments of the `set_timeout` calls, in order. -/
  timeouts : List Int
  /-- Whether `close(socket)` was called. -/
  closed : Bool
deriving DecidableEq

/-- The loop of lines 184-194: the return it forces (`some (-1)` when a
`send_ack` fails) and the acknowledgments transmitted. -/
def drain_loop (MAX_SIZE : Nat) : List DrainStep → Option Int × List RUDP_Packet
  | [] => (none, [])
  | s :: steps =>
    let rudp := s.recvfrom.getD (memset_zero MAX_SIZE)
    if rudp.flags.fin = true then
      let a := send_ack MAX_SIZE s.malloc_ack s.sendto_ack rudp
      if a.1 = -1 then (some (-1), [])
      else
        let rest := drain_loop MAX_SIZE steps
        (rest.1, a.2 ++ rest.2)
    else drain_loop MAX_SIZE steps

/-- Function `rudp_receive`, lines 95-202, called with the global `seq_number`.
The `int` fields and `seq_number` are integers of the model (`seq_number++` is
`+ 1`; in C it is undefined at `INT_MAX`).  The bytes stored through `buffer` are
the first `length` bytes of the region; a `length` beyond the region makes the C
code read past it, where the model has no bytes to give. -/
def rudp_receive (MAX_SIZE : Nat) (seq_number : Int) (env : RecvEnv) : RecvResult :=
  let fail : RecvResult :=
    { ret := -1, seq_number := seq_number, out := none, sent := [], timeouts := [],
      closed := false }
  if env.malloc_rudp = false then fail
  else
    match env.recvfrom with
    | none => fail
    | some rudp =>
      let a := send_ack MAX_SIZE env.malloc_ack env.sendto_ack rudp
      if a.1 = -1 then fail
      else if calculate_checksum rudp ≠ rudp.checksum then { fail with sent := a.2 }
      else if rudp.flags.isSyn = true then { fail with ret := 0, sent := a.2 }
      else
        let close_path (t : List Int) : RecvResult :=
          if rudp.flags.fin = true then
            if env.malloc_drain = false then
              { fail with sent := a.2, timeouts := t ++ [10] }
            else
              let d := drain_loop MAX_SIZE env.drain
              match d.1 with
              | some r => { fail with ret := r, sent := a.2 ++ d.2, timeouts := t ++ [10] }
              | none =>
                { fail with ret := -5, sent := a.2 ++ d.2, timeouts := t ++ [10],
                            closed := true }
          else { fail with ret := 0, sent := a.2, timeouts := t }
        if rudp.sequalNum = seq_number then
          let t : List Int :=
            if rudp.sequalNum = 0 ∧ rudp.flags.isData = true then [10] else []
          if rudp.flags.fin = true ∧ rudp.flags.isData = true then
            if env.malloc_buffer = false then { fail with sent := a.2, timeouts := t }
            else
              { ret := 5, seq_number := 0,
                out := some (rudp.data.take rudp.length.toNat, rudp.length),
                sent := a.2, timeouts := t ++ [10000000], closed := false }
          else if rudp.flags.isData = true then
            if env.malloc_buffer = false then { fail with sent := a.2, timeouts := t }
            else
              { ret := 1, seq_number := seq_number + 1,
                out := some (rudp.data.take rudp.length.toNat, rudp.length),
                sent := a.2, timeouts := t, closed := false }
          else close_path t
        else if rudp.flags.isData = true then { fail with ret := 0, sent := a.2 }
        else close_path []

/-! ## The packets of a message, and a lossless channel -/

/-- The packets `rudp_send` builds for `data`, in the order of its two loops:
the loop body for `i = 0 .. packets - 1`, then the remainder packet when
`last_pack_size > 0`. -/
def chunks (MAX_SIZE : Nat) (data : List Byte) : List RUDP_Packet :=
  let size := data.length
  let packets := size / MAX_SIZE
  let last_pack_size := size % MAX_SIZE
  (List.range packets).map (full_chunk MAX_SIZE data packets last_pack_size) ++
    (if last_pack_size > 0 then [last_chunk MAX_SIZE data packets last_pack_size] else [])

/-- A transmit trace with each run of identical consecutive packets (a packet
and its retransmissions) reduced to one packet. -/
def collapse : List RUDP_Packet → List RUDP_Packet
  | [] => []
  | p :: ps =>
    match ps with
    | [] => [p]
    | q :: _ => if p = q then collapse ps else p :: collapse ps

/-- The codec of the specification, section 4.1: `encode(flags, sequence, payload)`
sets `length` to the payload size and `checksum = length`; the payload fills the
first bytes of the zeroed region of `MAX_SIZE` bytes. -/
def spec_encode (MAX_SIZE : Nat) (flags : Flags) (sequence : Int) (payload : List Byte) :
    RUDP_Packet :=
  { sequalNum := sequence
    flags := flags
    length := (payload.length : Int)
    checksum := (payload.length : Int)
    data := payload ++ List.replicate (MAX_SIZE - payload.length) 0 }

/-- The segmentation in the words of the specification, section 4.4 steps 1-3
(to be compared with `chunks`, which follows the code). -/
def spec_segments (MAX_SIZE : Nat) (data : List Byte) : List RUDP_Packet :=
  let chunkCount := data.length / MAX_SIZE
  let remainder := data.length % MAX_SIZE
  (List.range chunkCount).map (fun i =>
      spec_encode MAX_SIZE
        { isData := true, isSyn := false, ack := false,
          fin := decide (i + 1 = chunkCount ∧ remainder = 0) }
        (i : Int) ((data.drop (i * MAX_SIZE)).take MAX_SIZE)) ++
    (if remainder > 0 then
      [spec_encode MAX_SIZE { isData := true, isSyn := false, ack := false, fin := true }
        (chunkCount : Int) (data.drop (chunkCount * MAX_SIZE))]
    else [])

/-- The environment of a `rudp_receive` call that receives `p` with every
allocation and the acknowledgment's `sendto` succeeding, and nothing arriving
afterwards. -/
def deliver (p : RUDP_Packet) : RecvEnv :=
  { malloc_rudp := true, recvfrom := some p, malloc_ack := true, sendto_ack := true,
    malloc_buffer := true, malloc_drain := true, drain := [] }

/-- Successive `rudp_receive` calls, one per packet, each starting from the
`seq_number` the previous one left. -/
def receive_all (MAX_SIZE : Nat) : Int → List RUDP_Packet → List RecvResult
  | _, [] => []
  | seq_number, p :: ps =>
    let r := rudp_receive MAX_SIZE seq_number (deliver p)
    r :: receive_all MAX_SIZE r.seq_number ps

/-- The rounds a sender sees on a lossless channel: every `sendto` succeeds and
each wait receives what the peer's `rudp_receive` call transmitted in reply. -/
def loopback_rounds (rs : List RecvResult) : List Round :=
  rs.map (fun r => { sendto_ok := true, window := r.sent.map some })

/-- The bytes the calls delivered through `*buffer`, concatenated in call order. -/
def delivered (rs : List RecvResult) : List Byte :=
  (rs.filterMap (fun r => r.out.map (fun o => o.1))).flatten

/-- Modelled from the spec: `RUDP_API.h`, which declares `RUDP_Packet`, is not
among the sources; section 6 of the specification gives the layout of the
datagram, whose last field is the payload region of `MAX_SIZE` bytes.  This is
the packet in `rudp` after the `memset` of line 102 and the `recvfrom` of line
105, which is given room for `sizeof(RUDP_Packet) - 1` bytes of a datagram of
`sizeof(RUDP_Packet)` bytes (lines 58 and 78): every byte of `sent` arrives but
the last byte of the structure, which stays 0.  `tail_padding` tells whether the
structure ends in padding after the payload region (as it does when `MAX_SIZE`
is not a multiple of the alignment of the structure): if it does, the packet
arrives whole; if not, the last byte of the payload region is the byte that is
lost. -/
def recvfrom_short (MAX_SIZE : Nat) (tail_padding : Bool) (sent : RUDP_Packet) :
    RUDP_Packet :=
  if tail_padding = true then sent
  else { sent with data := memcpy (memset_zero MAX_SIZE).data sent.data (MAX_SIZE - 1) }

/-- The calls of the receiver on a lossless channel: the packets `rudp_send`
builds for `data` arrive once each, in order, each through the `recvfrom` of line
105, at successive `rudp_receive` calls starting from `seq_number = 0`. -/
def lossless_receive (MAX_SIZE : Nat) (tail_padding : Bool) (data : List Byte) :
    List RecvResult :=
  receive_all MAX_SIZE 0 ((chunks MAX_SIZE data).map (recvfrom_short MAX_SIZE tail_padding))

/-- The round-trip property as claimed: the receiver is fed the packets of `data`
as they arrive, the sender runs against the acknowledgments those calls transmit;
the sender then returns 1 having transmitted exactly those packets once each, the
bytes delivered are `data`, exactly one call returns 5, and it is the last call. -/
def RoundTrip (MAX_SIZE : Nat) (tail_padding : Bool) (data : List Byte) : Prop :=
  let rs := lossless_receive MAX_SIZE tail_padding data
  let s := rudp_send MAX_SIZE true data (loopback_rounds rs)
  s.ret = some 1 ∧ transmitted s.events = chunks MAX_SIZE data ∧
    delivered rs = data ∧
    (rs.map (fun r => r.ret)).count 5 = 1 ∧
    (rs.map (fun r => r.ret)).getLast? = some 5

/-- The round-trip property with the bytes at the end of a full chunk left out:
as `RoundTrip`, but of the bytes delivered it says only that they are as many as
those of `data` and that they equal them at every index `i` that is not the last
of a run of `MAX_SIZE` bytes (`(i + 1) % MAX_SIZE ≠ 0`). -/
def RoundTripOffChunkEnds (MAX_SIZE : Nat) (tail_padding : Bool) (data : List Byte) : Prop :=
  let rs := lossless_receive MAX_SIZE tail_padding data
  let s := rudp_send MAX_SIZE true data (loopback_rounds rs)
  s.ret = some 1 ∧ transmitted s.events = chunks MAX_SIZE data ∧
    (delivered rs).length = data.length ∧
    (∀ i : Nat, (i + 1) % MAX_SIZE ≠ 0 → (delivered rs)[i]? = data[i]?) ∧
    (rs.map (fun r => r.ret)).count 5 = 1 ∧
    (rs.map (fun r => r.ret)).getLast? = some 5

/-! ## rudp_connect and rudp_accept -/

/-- One pass of the loop `while (attempts < 3)` of `rudp_connect` as the
environment decides it: whether the `sendto` of line 235 succeeds, the outcome of
the `recvfrom` in the first pass of the `do ... while` of lines 243-262, and the
outcomes of the `recvfrom` calls of the further passes made while the clock
condition of line 262 holds (`none`: `recvfrom` returned -1, as it does when the
receive timeout expires). -/
structure Attempt where
  sendto_ok : Bool
  first : Option RUDP_Packet
  more : List (Option RUDP_Packet)

/-- What `rudp_connect` reads from its environment. -/
structure ConnectEnv where
  /-- Line 207. -/
  set_timeout_ok : Bool
  /-- Line 215: `inet_pton` returned a positive value. -/
  inet_pton_ok : Bool
  /-- Line 220. -/
  connect_ok : Bool
  /-- Line 225. -/
  malloc_ok : Bool
  /-- The passes of the loop of line 234, by the value of `attempts`. -/
  attempt : Nat → Attempt

/-- What a handshake function returns and transmits. -/
structure HandshakeResult where
  ret : Int
  sent : List RUDP_Packet
  /-- Whether `close(socket)` was called. -/
  closed : Bool
deriving DecidableEq

/-- The packet built at lines 230-231: zeroed, with `isSyn` set. -/
def syn_packet (MAX_SIZE : Nat) : RUDP_Packet :=
  let rudp := memset_zero MAX_SIZE
  { rudp with flags := { rudp.flags with isSyn := true } }

/-- The `do ... while` of lines 243-262 over the outcomes of its `recvfrom`
calls: `some (-1)` when a `recvfrom` fails, `some 1` when a packet has `isSyn` and
`ack` set, `none` when the window ends without either. -/
def connect_window : List (Option RUDP_Packet) → Option Int
  | [] => none
  | none :: _ => some (-1)
  | some recv :: window =>
    if recv.flags.isSyn = true ∧ recv.flags.ack = true then some 1
    else connect_window window

/-- The loop `while (attempts < 3)` of lines 234-264 with `todo = 3 - attempts`
passes left, and the `return 0` of line 267 after it. -/
def connect_attempts (MAX_SIZE : Nat) (attempt : Nat → Attempt) :
    Nat → Nat → Int × List RUDP_Packet
  | 0, _ => (0, [])
  | todo + 1, attempts =>
    let a := attempt attempts
    if a.sendto_ok = false then (-1, [])
    else
      match connect_window (a.first :: a.more) with
      | some r => (r, [syn_packet MAX_SIZE])
      | none =>
        let rest := connect_attempts MAX_SIZE attempt todo (attempts + 1)
        (rest.1, syn_packet MAX_SIZE :: rest.2)

/-- Function `rudp_connect`, lines 205-268.  The `malloc` of line 244 is not
checked by the code and is taken to succeed. -/
def rudp_connect (MAX_SIZE : Nat) (env : ConnectEnv) : HandshakeResult :=
  if env.set_timeout_ok = false then { ret := -1, sent := [], closed := false }
  else if env.inet_pton_ok = false then { ret := -1, sent := [], closed := false }
  else if env.connect_ok = false then { ret := -1, sent := [], closed := false }
  else if env.malloc_ok = false then { ret := -1, sent := [], closed := false }
  else
    let r := connect_attempts MAX_SIZE env.attempt 3 0
    { ret := r.1, sent := r.2, closed := false }

/-- What `rudp_accept` reads from its environment. -/
structure AcceptEnv where
  /-- Line 277. -/
  bind_ok : Bool
  /-- Line 289: the packet in `rudp` afterwards, or `none` when it returns -1. -/
  recvfrom : Option RUDP_Packet
  /-- Line 296. -/
  connect_ok : Bool
  /-- Line 307. -/
  sendto_ok : Bool
  /-- Line 318. -/
  setsockopt_ok : Bool
deriving DecidableEq

/-- The reply built at lines 304-306: zeroed, with `isSyn` and `ack` set. -/
def syn_ack_packet (MAX_SIZE : Nat) : RUDP_Packet :=
  let reply := memset_zero MAX_SIZE
  let reply := { reply with flags := { reply.flags with isSyn := true } }
  { reply with flags := { reply.flags with ack := true } }

/-- Function `rudp_accept`, lines 270-327.  The `malloc` calls of lines 287 and
303 are not checked by the code and are taken to succeed. -/
def rudp_accept (MAX_SIZE : Nat) (env : AcceptEnv) : HandshakeResult :=
  if env.bind_ok = false then { ret := -1, sent := [], closed := true }
  else
    match env.recvfrom with
    | none => { ret := -1, sent := [], closed := false }
    | some rudp =>
      if env.connect_ok = false then { ret := -1, sent := [], closed := false }
      else if rudp.flags.isSyn = true then
        if env.sendto_ok = false then { ret := -1, sent := [], closed := false }
        else if env.setsockopt_ok = false then
          { ret := -1, sent := [syn_ack_packet MAX_SIZE], closed := false }
        else { ret := 1, sent := [syn_ack_packet MAX_SIZE], closed := false }
      else { ret := 0, sent := [], closed := false }

/-- The peer that never answers: every `sendto` succeeds and the first `recvfrom`
of every window returns -1 when the receive timeout expires. -/
def silent_peer : ConnectEnv :=
  { set_timeout_ok := true, inet_pton_ok := true, connect_ok := true, malloc_ok := true,
    attempt := fun _ => { sendto_ok := true, first := none, more := [] } }

/-! ## rudp_close -/

/-- The closing packet built at lines 337-340: zeroed, with `fin` set,
`sequalNum = -1` and the checksum of `calculate_checksum`. -/
def close_packet (MAX_SIZE : Nat) : RUDP_Packet :=
  let closing_pack := memset_zero MAX_SIZE
  let closing_pack := { closing_pack with flags := { closing_pack.flags with fin := true } }
  let closing_pack := { closing_pack with sequalNum := -1 }
  { closing_pack with checksum := calculate_checksum closing_pack }

/-- What `rudp_close` did to the socket and the value it returned (`none`: it
was still retransmitting when the scripted rounds ran out). -/
structure CloseResult where
  events : List Event
  ret : Option Int
  /-- Whether `close(socket)` was called. -/
  closed : Bool
deriving DecidableEq

/-- Function `rudp_close`, lines 330-354.  `malloc_ok` is the outcome of line 332,
`env` the rounds of the loop of lines 342-349. -/
def rudp_close (MAX_SIZE : Nat) (malloc_ok : Bool) (env : List Round) : CloseResult :=
  if malloc_ok = false then { events := [], ret := some (-1), closed := false }
  else
    let r := send_until_ack (close_packet MAX_SIZE) (-1) env
    { events := r.1, ret := ret_of r.2.1 0, closed := decide (r.2.1 = Outcome.done) }

/-! ## The global `seq_number` across calls -/

/-- One call of the API, with what it reads from its environment. -/
inductive Call where
  | send (malloc_ok : Bool) (data : List Byte) (env : List Round)
  | receive (env : RecvEnv)
  | connect (env : ConnectEnv)
  | accept (env : AcceptEnv)
  | close (malloc_ok : Bool) (env : List Round)

/-- The global `seq_number` (line 16) after a call made when it holds
`seq_number`.  The variable occurs in `rudp_receive` only (lines 134, 148, 162);
`rudp_send`, `rudp_connect`, `rudp_accept` and `rudp_close` neither read nor
assign it. -/
def seq_after (MAX_SIZE : Nat) (seq_number : Int) : Call → Int
  | Call.receive env => (rudp_receive MAX_SIZE seq_number env).seq_number
  | Call.send _ _ _ => seq_number
  | Call.connect _ => seq_number
  | Call.accept _ => seq_number
  | Call.close _ _ => seq_number

/-- The values `seq_number` takes after each call of a sequence of calls. -/
def run_calls (MAX_SIZE : Nat) : Int → List Call → List Int
  | _, [] => []
  | seq_number, c :: cs =>
    seq_after MAX_SIZE seq_number c :: run_calls MAX_SIZE (seq_after MAX_SIZE seq_number c) cs

/-! ## A monitor for stop-and-wait -/

/-- One step of the stop-and-wait monitor.  Its state is the sequence number `n`
of the current packet and the packet outstanding, if any: a packet may be
transmitted for the first time only when nothing is outstanding and must carry
`n`; while one is outstanding only that very packet may be transmitted again; a
matched acknowledgment must have `ack` set and carry `n`, and moves on to `n + 1`. -/
def sw_step : Nat × Option RUDP_Packet → Event → Option (Nat × Option RUDP_Packet)
  | (n, none), Event.tx q => if q.sequalNum = (n : Int) then some (n, some q) else none
  | (n, some p), Event.tx q => if q = p then some (n, some p) else none
  | (n, some _), Event.acked a =>
    if a.flags.ack = true ∧ a.sequalNum = (n : Int) then some (n + 1, none) else none
  | (_, none), Event.acked _ => none

/-- The monitor run over a trace: the state reached, or `none` when a step is
refused. -/
def sw_run : Nat × Option RUDP_Packet → List Event → Option (Nat × Option RUDP_Packet)
  | st, [] => some st
  | st, e :: ev =>
    match sw_step st e with
    | some st1 => sw_run st1 ev
    | none => none

/-! ## Well-formed packets -/

/-- The well-formedness of a packet: `checksum == length` and
`0 <= length <= MAX_SIZE`. -/
def well_formed (MAX_SIZE : Nat) (p : RUDP_Packet) : Prop :=
  p.checksum = p.length ∧ 0 ≤ p.length ∧ p.length ≤ (MAX_SIZE : Int)

/-! ## Helpers for stating the theorems -/

/-- The trace `repeat_each ks ps`: each packet of `ps` followed by its `k` retransmissions. -/
def repeat_each : List Nat → List RUDP_Packet → List RUDP_Packet
  | k :: ks, p :: ps => List.replicate (k + 1) p ++ repeat_each ks ps
  | _, _ => []

/-- The round in which `sendto` succeeds and the wait receives the
acknowledgment `send_ack` builds for `p`. -/
def ack_round (MAX_SIZE : Nat) (p : RUDP_Packet) : Round :=
  { sendto_ok := true, window := (send_ack MAX_SIZE true true p).2.map some }

/-- The payload a data packet carries: the first `length` bytes of its region. -/
def payload (p : RUDP_Packet) : List Byte := p.data.take p.length.toNat

/-! # Theorems -/

/-! ## Transmit traces -/

theorem collapse_cons_same (p : RUDP_Packet) (ps : List RUDP_Packet) :
    collapse (p :: p :: ps) = collapse (p :: ps) := by
  simp [collapse]

theorem collapse_cons_of_head (p : RUDP_Packet) (ps : List RUDP_Packet)
    (h : ps.head? ≠ some p) : collapse (p :: ps) = p :: collapse ps := by
  cases ps with
  | nil => simp [collapse]
  | cons q qs =>
    have hne : p ≠ q := by
      intro e; apply h; simp [e]
    simp [collapse, hne]

theorem collapse_replicate_append (k : Nat) (p : RUDP_Packet) (rest : List RUDP_Packet)
    (h : rest.head? ≠ some p) :
    collapse (List.replicate (k + 1) p ++ rest) = p :: collapse rest := by
  induction k with
  | zero => simpa using collapse_cons_of_head p rest h
  | succ k ih =>
    rw [List.replicate_succ, List.cons_append, List.replicate_succ, List.cons_append,
      collapse_cons_same]
    rw [List.replicate_succ, List.cons_append] at ih
    exact ih

theorem head_repeat_each : ∀ (ks : List Nat) (ps : List RUDP_Packet) (q : RUDP_Packet),
    (repeat_each ks ps).head? = some q → ps.head? = some q := by
  intro ks ps q
  cases ks with
  | nil => simp [repeat_each]
  | cons k ks =>
    cases ps with
    | nil => simp [repeat_each]
    | cons p ps => simp [repeat_each, List.replicate_succ]

theorem collapse_repeat_each : ∀ (ps : List RUDP_Packet) (ks : List Nat),
    ks.length = ps.length → ps.Pairwise (fun a b => a ≠ b) →
    collapse (repeat_each ks ps) = ps := by
  intro ps
  induction ps with
  | nil => intro ks _ _; cases ks <;> simp [repeat_each, collapse]
  | cons p ps ih =>
    intro ks hlen hpw
    cases ks with
    | nil => simp at hlen
    | cons k ks =>
      rw [List.pairwise_cons] at hpw
      have hhead : (repeat_each ks ps).head? ≠ some p := by
        intro e
        have := head_repeat_each ks ps p e
        cases ps with
        | nil => simp at this
        | cons q qs =>
          simp at this
          exact hpw.1 q (by simp) this.symm
      simp only [repeat_each]
      rw [collapse_replicate_append k p _ hhead, ih ks (by simpa using hlen) hpw.2]

theorem transmitted_append (e1 e2 : List Event) :
    transmitted (e1 ++ e2) = transmitted e1 ++ transmitted e2 := by
  induction e1 with
  | nil => rfl
  | cons e es ih => cases e <;> simp [transmitted, ih]

theorem transmitted_replicate_tx (k : Nat) (p : RUDP_Packet) :
    transmitted (List.replicate k (Event.tx p)) = List.replicate k p := by
  induction k with
  | zero => rfl
  | succ k ih => simp [List.replicate_succ, transmitted, ih]

theorem wait_ack_nonneg (s : Int) (w : List (Option RUDP_Packet)) :
    wait_ack s w = 0 ∨ wait_ack s w = 1 := by
  induction w with
  | nil => simp [wait_ack]
  | cons r w ih =>
    simp only [wait_ack]
    split
    · right; rfl
    · exact ih

theorem wait_ack_pos (s : Int) (w : List (Option RUDP_Packet)) (h : ¬ wait_ack s w ≤ 0) :
    ∃ a, wait_ack_packet s w = some a ∧ some a ∈ w ∧ a.flags.ack = true ∧ a.sequalNum = s := by
  induction w with
  | nil => simp [wait_ack] at h
  | cons r w ih =>
    simp only [wait_ack] at h
    simp only [wait_ack_packet]
    by_cases hm : ack_matches s r = true
    · cases r with
      | none => simp [ack_matches] at hm
      | some a =>
        simp only [ack_matches, Bool.and_eq_true, beq_iff_eq] at hm
        exact ⟨a, by simp [ack_matches, hm.1, hm.2], by simp, hm.1, hm.2⟩
    · simp only [hm] at h ⊢
      obtain ⟨a, h1, h2, h3⟩ := ih (by simpa using h)
      exact ⟨a, by simpa using h1, by simp [h2], h3⟩

theorem send_until_ack_events (p : RUDP_Packet) (s : Int) : ∀ env : List Round,
    ((send_until_ack p s env).2.1 = Outcome.done →
      ∃ k a, (send_until_ack p s env).1
          = List.replicate k (Event.tx p) ++ [Event.tx p, Event.acked a] ∧
        a.flags.ack = true ∧ a.sequalNum = s) ∧
    ((send_until_ack p s env).2.1 ≠ Outcome.done →
      ∃ k, (send_until_ack p s env).1 = List.replicate k (Event.tx p)) := by
  intro env
  induction env with
  | nil =>
    simp only [send_until_ack]
    exact ⟨fun h => (by cases h), fun _ => ⟨0, rfl⟩⟩
  | cons r env ih =>
    simp only [send_until_ack]
    by_cases hs : r.sendto_ok = false
    · simp only [hs, if_true]
      exact ⟨fun h => (by cases h), fun _ => ⟨0, rfl⟩⟩
    · simp only [hs, if_false]
      by_cases hw : wait_ack s r.window ≤ 0
      · simp only [hw, if_true]
        refine ⟨fun h => ?_, fun h => ?_⟩
        · obtain ⟨k, a, h1, h2⟩ := ih.1 h
          exact ⟨k + 1, a, (by rw [h1]; rfl), h2⟩
        · obtain ⟨k, h1⟩ := ih.2 h
          exact ⟨k + 1, (by rw [h1]; rfl)⟩
      · simp only [hw, if_false]
        refine ⟨fun _ => ?_, fun h => absurd rfl h⟩
        obtain ⟨a, h1, _, h2⟩ := wait_ack_pos s r.window hw
        exact ⟨0, a, by simp [ack_event, h1], h2⟩

theorem send_until_ack_tx (p : RUDP_Packet) (s : Int) (env : List Round)
    (h : (send_until_ack p s env).2.1 = Outcome.done) :
    ∃ k, transmitted (send_until_ack p s env).1 = List.replicate (k + 1) p := by
  obtain ⟨k, a, h1, _⟩ := (send_until_ack_events p s env).1 h
  refine ⟨k, ?_⟩
  rw [h1, transmitted_append, transmitted_replicate_tx]
  simp [transmitted, List.replicate_succ']

theorem send_chunks_tx (M : Nat) (data : List Byte) (packets last : Nat) :
    ∀ (todo i : Nat) (env : List Round),
    (send_chunks M data packets last todo i env).2.1 = Outcome.done →
    ∃ ks : List Nat, ks.length = todo ∧
      transmitted (send_chunks M data packets last todo i env).1
        = repeat_each ks ((List.range' i todo).map (full_chunk M data packets last)) := by
  intro todo
  induction todo with
  | zero => intro i env _; exact ⟨[], rfl, by simp [send_chunks, transmitted, repeat_each]⟩
  | succ todo ih =>
    intro i env h
    simp only [send_chunks] at h ⊢
    generalize hq : send_until_ack (full_chunk M data packets last i) (i : Int) env = q at h ⊢
    obtain ⟨ev, out, env1⟩ := q
    cases out with
    | done =>
      simp only at h ⊢
      obtain ⟨ks, hk, hks⟩ := ih (i + 1) env1 h
      obtain ⟨k, hk1⟩ := send_until_ack_tx (full_chunk M data packets last i) (i : Int) env
        (by rw [hq])
      rw [hq] at hk1
      refine ⟨k :: ks, by simp [hk], ?_⟩
      rw [transmitted_append, hks, hk1, List.range'_succ]
      simp [repeat_each]
    | failed => simp at h
    | running => simp at h

theorem repeat_each_append : ∀ (ks1 : List Nat) (ps1 : List RUDP_Packet)
    (ks2 : List Nat) (ps2 : List RUDP_Packet), ks1.length = ps1.length →
    repeat_each (ks1 ++ ks2) (ps1 ++ ps2) = repeat_each ks1 ps1 ++ repeat_each ks2 ps2 := by
  intro ks1
  induction ks1 with
  | nil =>
    intro ps1 ks2 ps2 h
    cases ps1 with
    | nil => simp [repeat_each]
    | cons p ps => simp at h
  | cons k ks ih =>
    intro ps1 ks2 ps2 h
    cases ps1 with
    | nil => simp at h
    | cons p ps =>
      show List.replicate (k + 1) p ++ repeat_each (ks ++ ks2) (ps ++ ps2)
        = (List.replicate (k + 1) p ++ repeat_each ks ps) ++ repeat_each ks2 ps2
      rw [ih ps ks2 ps2 (by simpa using h), List.append_assoc]

theorem rudp_send_tx (M : Nat) (data : List Byte) (env : List Round)
    (h : (rudp_send M true data env).ret = some 1) :
    ∃ ks : List Nat, ks.length = (chunks M data).length ∧
      transmitted (rudp_send M true data env).events = repeat_each ks (chunks M data) := by
  simp only [rudp_send, chunks] at h ⊢
  simp only [Bool.true_eq_false, if_false] at h ⊢
  generalize hq : send_chunks M data (data.length / M) (data.length % M) (data.length / M) 0 env
    = q at h ⊢
  obtain ⟨ev, out, env1⟩ := q
  have hB := send_chunks_tx M data (data.length / M) (data.length % M) (data.length / M) 0 env
  rw [hq] at hB
  cases out with
  | done =>
    obtain ⟨ks, hk, hks⟩ := hB rfl
    simp only at h hks ⊢
    rw [List.range_eq_range']
    by_cases hl : data.length % M > 0
    · simp only [hl, if_true] at h ⊢
      generalize hf : send_until_ack (last_chunk M data (data.length / M) (data.length % M))
        ((data.length / M : Nat) : Int) env1 = f at h ⊢
      have hdone : f.2.1 = Outcome.done := by
        cases hfo : f.2.1 with
        | done => rfl
        | failed => rw [hfo] at h; simp [ret_of] at h
        | running => rw [hfo] at h; simp [ret_of] at h
      obtain ⟨k, hk1⟩ := send_until_ack_tx _ _ env1 (by rw [hf]; exact hdone)
      rw [hf] at hk1
      refine ⟨ks ++ [k], by simp [hk], ?_⟩
      rw [transmitted_append, hks, hk1, repeat_each_append _ _ _ _ (by simp [hk])]
      simp [repeat_each]
    · simp only [hl, if_false] at h ⊢
      exact ⟨ks, by simp [hk], by simpa using hks⟩
  | failed => simp [ret_of] at h
  | running => simp [ret_of] at h

theorem slice_length (M : Nat) (data : List Byte) (i : Nat) (hi : i < data.length / M) :
    ((data.drop (i * M)).take M).length = M := by
  have h1 : (i + 1) * M ≤ data.length :=
    le_trans (Nat.mul_le_mul_right M hi) (Nat.div_mul_le_self _ _)
  rw [List.length_take, List.length_drop]
  have : i * M + M ≤ data.length := by rw [← Nat.succ_mul]; exact h1
  omega

theorem full_chunk_eq_spec (M : Nat) (data : List Byte) (i : Nat)
    (hi : i < data.length / M) :
    full_chunk M data (data.length / M) (data.length % M) i
      = spec_encode M
          { isData := true, isSyn := false, ack := false,
            fin := decide (i + 1 = data.length / M ∧ data.length % M = 0) }
          (i : Int) ((data.drop (i * M)).take M) := by
  have hlen := slice_length M data i hi
  have hfin : ((i : Int) = ((data.length / M : Nat) : Int) - 1 ∧ data.length % M = 0)
      ↔ (i + 1 = data.length / M ∧ data.length % M = 0) := by
    constructor
    · rintro ⟨a, b⟩; exact ⟨by omega, b⟩
    · rintro ⟨a, b⟩; exact ⟨by omega, b⟩
  by_cases hc : (i + 1 = data.length / M ∧ data.length % M = 0)
  · have hc2 := hfin.2 hc
    simp [full_chunk, spec_encode, memset_zero, memcpy, calculate_checksum, hlen, hc, hc2]
  · have hc2 : ¬ ((i : Int) = ((data.length / M : Nat) : Int) - 1 ∧ data.length % M = 0) :=
      fun h => hc (hfin.1 h)
    simp only [full_chunk, spec_encode, memset_zero, memcpy, calculate_checksum, hlen, hc,
      if_neg hc2]
    simp

theorem last_chunk_eq_spec (M : Nat) (hM : 0 < M) (data : List Byte) :
    last_chunk M data (data.length / M) (data.length % M)
      = spec_encode M { isData := true, isSyn := false, ack := false, fin := true }
        ((data.length / M : Nat) : Int) (data.drop (data.length / M * M)) := by
  have hlen : (data.drop (data.length / M * M)).length = data.length % M := by
    rw [List.length_drop]
    have := Nat.div_add_mod data.length M
    have h2 : data.length / M * M = M * (data.length / M) := Nat.mul_comm _ _
    omega
  have hlt : data.length % M < M := Nat.mod_lt _ hM
  have htake : List.take (data.length % M) (data.drop (data.length / M * M))
      = data.drop (data.length / M * M) := List.take_of_length_le (by omega)
  simp [last_chunk, spec_encode, memset_zero, memcpy, calculate_checksum, hlen, htake]

theorem chunks_eq_spec (M : Nat) (hM : 0 < M) (data : List Byte) :
    chunks M data = spec_segments M data := by
  simp only [chunks, spec_segments]
  congr 1
  · apply List.map_congr_left
    intro i hi
    exact full_chunk_eq_spec M data i (by simpa using hi)
  · rw [last_chunk_eq_spec M hM data]

theorem full_chunk_seq (M : Nat) (data : List Byte) (n l i : Nat) :
    (full_chunk M data n l i).sequalNum = (i : Int) := by
  simp only [full_chunk]; split <;> rfl

theorem chunks_seq (M : Nat) (data : List Byte) :
    (chunks M data).map (fun p => p.sequalNum)
      = (List.range (chunks M data).length).map (fun i : Nat => (i : Int)) := by
  simp only [chunks]
  by_cases hl : data.length % M > 0
  · simp only [hl, if_true, List.map_append, List.length_append, List.length_map,
      List.length_range, List.length_singleton, List.range_succ, List.map_map]
    congr 1
    apply List.map_congr_left
    intro i _
    exact full_chunk_seq M data _ _ i
  · simp only [hl, if_false, List.append_nil, List.length_map, List.length_range,
      List.map_map]
    apply List.map_congr_left
    intro i _
    exact full_chunk_seq M data _ _ i

theorem chunks_pairwise (M : Nat) (data : List Byte) :
    (chunks M data).Pairwise (fun a b => a ≠ b) := by
  have h : ((chunks M data).map (fun p => p.sequalNum)).Nodup := by
    rw [chunks_seq]
    exact List.Nodup.map (fun a b h => by exact_mod_cast h) (List.nodup_range _)
  exact List.Pairwise.of_map (fun p => p.sequalNum) (fun a b hab e => hab (by rw [e])) h

theorem mem_repeat_each : ∀ (ks : List Nat) (ps : List RUDP_Packet) (q : RUDP_Packet),
    q ∈ repeat_each ks ps → q ∈ ps := by
  intro ks
  induction ks with
  | nil => intro ps q h; simp [repeat_each] at h
  | cons k ks ih =>
    intro ps q h
    cases ps with
    | nil => simp [repeat_each] at h
    | cons p ps =>
      simp only [repeat_each, List.mem_append] at h
      rcases h with h | h
      · rw [List.eq_of_mem_replicate h]; simp
      · exact List.mem_cons_of_mem _ (ih ps q h)

/-- C2 (segmentation): for every buffer and every behaviour of the peer in which
`rudp_send` returns 1, the distinct packets it transmitted (each run of a packet
and its retransmissions counted once) are, in order, the segmentation of the
specification: for each `i < chunkCount` a packet with sequence `i`, `isData` set,
length `MAX_SIZE`, payload the bytes `[i*MAX_SIZE, (i+1)*MAX_SIZE)` and `fin` set
iff `i = chunkCount - 1` and `remainder = 0`; then, iff `remainder > 0`, one packet
with sequence `chunkCount`, `isData` and `fin` set, length `remainder` and the
trailing bytes as payload.  No transmitted packet has `isSyn` or `ack` set. -/
theorem rudp_send_segmentation (MAX_SIZE : Nat) (hM : 0 < MAX_SIZE) (data : List Byte)
    (env : List Round) (hret : (rudp_send MAX_SIZE true data env).ret = some 1) :
    collapse (transmitted (rudp_send MAX_SIZE true data env).events)
        = spec_segments MAX_SIZE data ∧
      ∀ p ∈ transmitted (rudp_send MAX_SIZE true data env).events,
        p.flags.isSyn = false ∧ p.flags.ack = false := by
  obtain ⟨ks, hk, hks⟩ := rudp_send_tx MAX_SIZE data env hret
  refine ⟨?_, ?_⟩
  · rw [hks, collapse_repeat_each _ _ hk (chunks_pairwise MAX_SIZE data),
      chunks_eq_spec MAX_SIZE hM data]
  · intro p hp
    rw [hks] at hp
    have hmem := mem_repeat_each ks _ p hp
    rw [chunks_eq_spec MAX_SIZE hM data] at hmem
    simp only [spec_segments, List.mem_append, List.mem_map] at hmem
    rcases hmem with ⟨i, _, rfl⟩ | hmem
    · simp [spec_encode]
    · split at hmem
      · rw [List.mem_singleton] at hmem
        rw [hmem]; simp [spec_encode]
      · simp at hmem

theorem collapse_transmitted (M : Nat) (data : List Byte) (env : List Round)
    (h : (rudp_send M true data env).ret = some 1) :
    collapse (transmitted (rudp_send M true data env).events) = chunks M data := by
  obtain ⟨ks, hk, hks⟩ := rudp_send_tx M data env h
  rw [hks, collapse_repeat_each _ _ hk (chunks_pairwise M data)]

theorem full_chunk_length (M : Nat) (data : List Byte) (n l i : Nat) :
    (full_chunk M data n l i).length = (M : Int) := by
  simp only [full_chunk]

theorem full_chunk_fin (M : Nat) (data : List Byte) (n l i : Nat) :
    (full_chunk M data n l i).flags.fin = decide (i + 1 = n ∧ l = 0) := by
  by_cases hc : (i : Int) = (n : Int) - 1 ∧ l = 0
  · have : i + 1 = n ∧ l = 0 := ⟨by omega, hc.2⟩
    simp [full_chunk, hc, this]
  · have : ¬ (i + 1 = n ∧ l = 0) := fun h => hc ⟨by omega, h.2⟩
    simp only [full_chunk, if_neg hc, this, decide_False]
    rfl

theorem chunks_of_multiple (M : Nat) (hM : 0 < M) (data : List Byte) (k : Nat)
    (hlen : data.length = k * M) :
    chunks M data = (List.range k).map (full_chunk M data k 0) := by
  have h1 : data.length / M = k := by rw [hlen]; exact Nat.mul_div_cancel k hM
  have h2 : data.length % M = 0 := by rw [hlen]; exact Nat.mul_mod_left k M
  simp [chunks, h1, h2]

/-- C3 (segmentation boundary, as the code has it): whenever `rudp_send` returns 1,
a buffer whose length is a positive multiple `k * MAX_SIZE` is sent as exactly `k`
distinct data packets, all of length `MAX_SIZE` (none of length 0), the last of
which carries `fin`; a buffer of length `MAX_SIZE` is sent as one packet of length
`MAX_SIZE` with `fin` set; a buffer of length `MAX_SIZE + 1` is sent as a packet of
length `MAX_SIZE` without `fin` followed by a 1-byte packet with `fin`. -/
theorem rudp_send_boundary (MAX_SIZE : Nat) (hM : 0 < MAX_SIZE) (data : List Byte)
    (env : List Round) (hret : (rudp_send MAX_SIZE true data env).ret = some 1) :
    (∀ k : Nat, 0 < k → data.length = k * MAX_SIZE →
      (collapse (transmitted (rudp_send MAX_SIZE true data env).events)).length = k ∧
      (∀ p ∈ collapse (transmitted (rudp_send MAX_SIZE true data env).events),
        p.length = (MAX_SIZE : Int) ∧ p.flags.isData = true) ∧
      ∃ p, (collapse (transmitted (rudp_send MAX_SIZE true data env).events)).getLast?
          = some p ∧ p.flags.fin = true) ∧
    (data.length = MAX_SIZE →
      (collapse (transmitted (rudp_send MAX_SIZE true data env).events)).map
          (fun p => (p.length, p.flags.fin)) = [((MAX_SIZE : Int), true)]) ∧
    (data.length = MAX_SIZE + 1 →
      (collapse (transmitted (rudp_send MAX_SIZE true data env).events)).map
          (fun p => (p.length, p.flags.fin)) = [((MAX_SIZE : Int), false), (1, true)]) := by
  rw [collapse_transmitted MAX_SIZE data env hret]
  refine ⟨?_, ?_, ?_⟩
  · intro k hk hlen
    rw [chunks_of_multiple MAX_SIZE hM data k hlen]
    refine ⟨by simp, ?_, ?_⟩
    · intro p hp
      simp only [List.mem_map] at hp
      obtain ⟨i, _, rfl⟩ := hp
      refine ⟨full_chunk_length _ _ _ _ _, ?_⟩
      simp only [full_chunk]; split <;> rfl
    · obtain ⟨j, rfl⟩ : ∃ j, k = j + 1 := ⟨k - 1, by omega⟩
      refine ⟨full_chunk MAX_SIZE data (j + 1) 0 j, ?_, ?_⟩
      · rw [List.range_succ, List.map_append]
        simp
      · rw [full_chunk_fin]; simp
  · intro hlen
    rw [chunks_of_multiple MAX_SIZE hM data 1 (by simpa using hlen)]
    simp [List.range_succ, full_chunk_length, full_chunk_fin]
  · intro hlen
    by_cases h1 : MAX_SIZE = 1
    · subst h1
      rw [chunks_of_multiple 1 hM data 2 (by simpa using hlen)]
      simp [List.range_succ, full_chunk_length, full_chunk_fin]
    · have hd : data.length / MAX_SIZE = 1 := by
        rw [hlen]
        have : (MAX_SIZE + 1) / MAX_SIZE = 1 := by
          apply Nat.div_eq_of_lt_le <;> omega
        exact this
      have hm : data.length % MAX_SIZE = 1 := by
        rw [hlen, Nat.add_mod_left]
        exact Nat.mod_eq_of_lt (by omega)
      simp only [chunks, hd, hm]
      simp [List.range_succ, full_chunk_length, full_chunk_fin, last_chunk, calculate_checksum]

theorem send_ack_ok (M : Nat) (p : RUDP_Packet) :
    (send_ack M true true p).1 = 1 := by
  simp [send_ack]

theorem rudp_receive_data (M : Nat) (seq : Int) (env : RecvEnv) (p : RUDP_Packet)
    (h1 : env.malloc_rudp = true) (h2 : env.recvfrom = some p)
    (h3 : env.malloc_ack = true) (h4 : env.sendto_ack = true)
    (h5 : env.malloc_buffer = true)
    (hc : p.checksum = p.length) (hsyn : p.flags.isSyn = false)
    (hdata : p.flags.isData = true) (hseq : p.sequalNum = seq) :
    rudp_receive M seq env =
      { ret := if p.flags.fin = true then 5 else 1
        seq_number := if p.flags.fin = true then 0 else seq + 1
        out := some (p.data.take p.length.toNat, p.length)
        sent := (send_ack M true true p).2
        timeouts := (if p.sequalNum = 0 then [10] else [])
          ++ (if p.flags.fin = true then [10000000] else [])
        closed := false } := by
  have hck : calculate_checksum p = p.checksum := by simp [calculate_checksum, hc]
  simp only [rudp_receive, h1, h2, h3, h4, h5, send_ack_ok, hck, hsyn, hdata, hseq]
  by_cases hf : p.flags.fin = true <;> simp [hf]

theorem rudp_receive_sent (M : Nat) (seq : Int) (p : RUDP_Packet) :
    (rudp_receive M seq (deliver p)).sent = (send_ack M true true p).2 := by
  simp only [rudp_receive, deliver, send_ack_ok, drain_loop]
  simp only [Bool.true_eq_false, if_false]
  norm_num
  repeat' split
  all_goals simp

theorem loopback_rounds_receive_all (M : Nat) : ∀ (ps : List RUDP_Packet) (seq : Int),
    loopback_rounds (receive_all M seq ps)
      = ps.map (ack_round M) := by
  intro ps
  induction ps with
  | nil => intro seq; rfl
  | cons p ps ih =>
    intro seq
    simp only [receive_all, loopback_rounds, List.map_cons, rudp_receive_sent, ack_round]
    congr 1
    exact ih _

theorem delivered_cons (r : RecvResult) (rs : List RecvResult) (b : List Byte) (n : Int)
    (h : r.out = some (b, n)) : delivered (r :: rs) = b ++ delivered rs := by
  simp [delivered, h]

theorem receive_all_in_order (M : Nat) : ∀ (ps : List RUDP_Packet) (i : Nat),
    (∀ p ∈ ps, p.checksum = p.length ∧ p.flags.isSyn = false ∧ p.flags.isData = true ∧
      p.flags.fin = false) →
    ps.map (fun p => p.sequalNum) = (List.range' i ps.length).map (fun j : Nat => (j : Int)) →
    ∀ q : RUDP_Packet, q.checksum = q.length → q.flags.isSyn = false →
      q.flags.isData = true → q.flags.fin = true → q.sequalNum = ((i + ps.length : Nat) : Int) →
    (receive_all M (i : Int) (ps ++ [q])).map (fun r => r.ret)
        = List.replicate ps.length 1 ++ [5] ∧
      delivered (receive_all M (i : Int) (ps ++ [q])) = ((ps ++ [q]).map payload).flatten := by
  intro ps
  induction ps with
  | nil =>
    intro i _ _ q hc hs hd hf hq
    have hr := rudp_receive_data M (i : Int) (deliver q) q rfl rfl rfl rfl rfl hc hs hd
      (by simpa using hq)
    simp only [List.nil_append, receive_all, List.map_cons, List.map_nil, List.length_nil,
      List.replicate_zero]
    rw [hr]
    simp [hf, delivered, payload]
  | cons p ps ih =>
    intro i hall hseq q hc hs hd hf hq
    have hp := hall p (by simp)
    simp only [List.map_cons, List.length_cons, List.range'_succ, List.cons.injEq] at hseq
    have hr := rudp_receive_data M (i : Int) (deliver p) p rfl rfl rfl rfl rfl hp.1 hp.2.1
      hp.2.2.1 hseq.1
    have hih := ih (i + 1) (fun x hx => hall x (List.mem_cons_of_mem _ hx)) hseq.2 q hc hs hd hf
      (by rw [hq]; simp only [List.length_cons]; congr 1; omega)
    simp only [List.cons_append, receive_all]
    rw [hr]
    simp only [hp.2.2.2, Bool.false_eq_true, if_false, List.map_cons, List.length_cons,
      List.replicate_succ, List.cons_append, List.flatten_cons, List.append_eq]
    have hcast : ((i : Int) + 1) = ((i + 1 : Nat) : Int) := by push_cast; rfl
    rw [hcast]
    refine ⟨by rw [hih.1], ?_⟩
    rw [delivered_cons _ _ (p.data.take p.length.toNat) p.length rfl, hih.2]
    simp [payload]

theorem chunks_wellformed (M : Nat) (hM : 0 < M) (data : List Byte) :
    ∀ p ∈ chunks M data,
      p.checksum = p.length ∧ p.flags.isSyn = false ∧ p.flags.isData = true ∧
      p.flags.ack = false := by
  intro p hp
  rw [chunks_eq_spec M hM data] at hp
  simp only [spec_segments, List.mem_append, List.mem_map] at hp
  rcases hp with ⟨i, _, rfl⟩ | hp
  · simp [spec_encode]
  · split at hp
    · rw [List.mem_singleton] at hp
      rw [hp]; simp [spec_encode]
    · simp at hp

theorem chunks_split (M : Nat) (data : List Byte) (hne : data ≠ []) :
    ∃ (body : List RUDP_Packet) (q : RUDP_Packet), chunks M data = body ++ [q] ∧
      (∀ p ∈ body, p.flags.fin = false) ∧ q.flags.fin = true := by
  have hpos : 0 < data.length := List.length_pos.mpr hne
  by_cases hl : data.length % M > 0
  · refine ⟨(List.range (data.length / M)).map
      (full_chunk M data (data.length / M) (data.length % M)),
      last_chunk M data (data.length / M) (data.length % M), ?_, ?_, ?_⟩
    · simp [chunks, hl]
    · intro p hp
      simp only [List.mem_map] at hp
      obtain ⟨i, _, rfl⟩ := hp
      rw [full_chunk_fin]
      simp; omega
    · simp [last_chunk]
  · have hl0 : data.length % M = 0 := by omega
    have hk : 0 < data.length / M := by
      rcases Nat.eq_zero_or_pos (data.length / M) with h | h
      · have := Nat.div_add_mod data.length M
        rw [h, hl0] at this
        omega
      · exact h
    obtain ⟨k, hk1⟩ : ∃ k, data.length / M = k + 1 := ⟨data.length / M - 1, by omega⟩
    refine ⟨(List.range k).map (full_chunk M data (k + 1) 0), full_chunk M data (k + 1) 0 k,
      ?_, ?_, ?_⟩
    · simp [chunks, hl0, hk1, List.range_succ]
    · intro p hp
      simp only [List.mem_map, List.mem_range] at hp
      obtain ⟨i, hi, rfl⟩ := hp
      rw [full_chunk_fin]
      simp; omega
    · rw [full_chunk_fin]; simp

theorem flatten_slices (M : Nat) (data : List Byte) : ∀ n : Nat,
    ((List.range n).map (fun i => (data.drop (i * M)).take M)).flatten = data.take (n * M) := by
  intro n
  induction n with
  | zero => simp
  | succ n ih =>
    rw [List.range_succ, List.map_append, List.flatten_append, ih, Nat.succ_mul, List.take_add]
    simp

theorem payload_spec_encode (M : Nat) (f : Flags) (s : Int) (pl : List Byte) :
    payload (spec_encode M f s pl) = pl := by
  simp [payload, spec_encode]

theorem chunks_payload (M : Nat) (hM : 0 < M) (data : List Byte) :
    ((chunks M data).map payload).flatten = data := by
  rw [chunks_eq_spec M hM data]
  simp only [spec_segments, List.map_append, List.map_map, List.flatten_append]
  have h1 : (List.map (payload ∘ fun i => spec_encode M
      { isData := true, isSyn := false, ack := false,
        fin := decide (i + 1 = data.length / M ∧ data.length % M = 0) }
      (i : Int) ((data.drop (i * M)).take M)) (List.range (data.length / M)))
      = (List.range (data.length / M)).map (fun i => (data.drop (i * M)).take M) := by
    apply List.map_congr_left
    intro i _
    simp [payload_spec_encode]
  rw [h1, flatten_slices]
  by_cases hl : data.length % M > 0
  · simp [hl, payload_spec_encode]
  · have hl0 : data.length % M = 0 := by omega
    have hlen : data.length / M * M = data.length := Nat.div_mul_cancel (Nat.dvd_of_mod_eq_zero hl0)
    simp [hl, hlen]

theorem send_until_ack_lossless (M : Nat) (p q : RUDP_Packet) (s : Int) (env : List Round)
    (hq : q.sequalNum = s) :
    (send_until_ack p s (ack_round M q :: env)).2 = (Outcome.done, env) ∧
      transmitted (send_until_ack p s (ack_round M q :: env)).1 = [p] := by
  simp [ack_round, send_until_ack, send_ack, ack_packet, wait_ack, ack_matches, hq,
    ack_event, wait_ack_packet, transmitted, memset_zero, calculate_checksum]

theorem send_chunks_lossless (M : Nat) (data : List Byte) (n l : Nat) :
    ∀ (todo i : Nat) (rest : List Round),
    (send_chunks M data n l todo i
        (((List.range' i todo).map (full_chunk M data n l)).map (ack_round M) ++ rest)).2
        = (Outcome.done, rest) ∧
      transmitted (send_chunks M data n l todo i
        (((List.range' i todo).map (full_chunk M data n l)).map (ack_round M) ++ rest)).1
        = (List.range' i todo).map (full_chunk M data n l) := by
  intro todo
  induction todo with
  | zero => intro i rest; simp [send_chunks, transmitted]
  | succ todo ih =>
    intro i rest
    simp only [List.range'_succ, List.map_cons, List.cons_append, send_chunks]
    have h := send_until_ack_lossless M (full_chunk M data n l i) (full_chunk M data n l i)
      (i : Int) (List.map (ack_round M)
        ((List.range' (i + 1) todo).map (full_chunk M data n l)) ++ rest)
      (full_chunk_seq M data n l i)
    generalize send_until_ack (full_chunk M data n l i) (i : Int) _ = r at h ⊢
    obtain ⟨ev, out, env1⟩ := r
    simp only [Prod.mk.injEq] at h
    obtain ⟨⟨rfl, rfl⟩, h3⟩ := h
    simp only
    have h4 := ih (i + 1) rest
    refine ⟨?_, ?_⟩
    · rw [← h4.1]
    · rw [transmitted_append, h3, h4.2]; rfl

theorem rudp_send_lossless (M : Nat) (data : List Byte) :
    (rudp_send M true data ((chunks M data).map (ack_round M))).ret = some 1 ∧
      transmitted (rudp_send M true data ((chunks M data).map (ack_round M))).events
        = chunks M data := by
  simp only [rudp_send, chunks, Bool.true_eq_false, if_false, List.map_append]
  rw [List.range_eq_range']
  have h := send_chunks_lossless M data (data.length / M) (data.length % M) (data.length / M) 0
    (List.map (ack_round M)
      (if data.length % M > 0 then [last_chunk M data (data.length / M) (data.length % M)]
        else []))
  generalize send_chunks M data (data.length / M) (data.length % M) (data.length / M) 0 _ = r
    at h ⊢
  obtain ⟨ev, out, env1⟩ := r
  simp only [Prod.mk.injEq] at h
  obtain ⟨⟨rfl, rfl⟩, h3⟩ := h
  simp only
  by_cases hl : data.length % M > 0
  · simp only [hl, if_true, List.map_cons, List.map_nil]
    have h5 := send_until_ack_lossless M (last_chunk M data (data.length / M) (data.length % M))
      (last_chunk M data (data.length / M) (data.length % M)) ((data.length / M : Nat) : Int) []
      (by simp [last_chunk])
    generalize send_until_ack (last_chunk M data (data.length / M) (data.length % M)) _ _ = f
      at h5 ⊢
    obtain ⟨ev2, out2, env2⟩ := f
    simp only [Prod.mk.injEq] at h5
    obtain ⟨⟨rfl, rfl⟩, h6⟩ := h5
    simp only [ret_of, transmitted_append, h3, h6]
    simp
  · simp only [hl, if_false, List.append_nil]
    exact ⟨trivial, h3⟩

theorem recvfrom_short_header (M : Nat) (pad : Bool) (p : RUDP_Packet) :
    (recvfrom_short M pad p).sequalNum = p.sequalNum ∧
      (recvfrom_short M pad p).flags = p.flags ∧
      (recvfrom_short M pad p).length = p.length ∧
      (recvfrom_short M pad p).checksum = p.checksum := by
  cases pad <;> simp [recvfrom_short]

theorem ack_round_recvfrom_short (M : Nat) (pad : Bool) (p : RUDP_Packet) :
    ack_round M (recvfrom_short M pad p) = ack_round M p := by
  simp [ack_round, send_ack, ack_packet, (recvfrom_short_header M pad p).1]

theorem payload_recvfrom_short_below (M : Nat) (pad : Bool) (p : RUDP_Packet)
    (hl : p.length.toNat < M) (hd : p.data.length = M) :
    payload (recvfrom_short M pad p) = payload p := by
  cases pad with
  | true => simp [recvfrom_short]
  | false =>
    simp only [payload, recvfrom_short, Bool.false_eq_true, if_false, memcpy]
    rw [List.take_append_of_le_length (by rw [List.length_take]; omega), List.take_take]
    congr 1
    omega

theorem payload_recvfrom_short_full (M : Nat) (hM : 0 < M) (pad : Bool) (p : RUDP_Packet)
    (hl : p.length = (M : Int)) (hd : p.data.length = M) :
    (payload (recvfrom_short M pad p)).length = M ∧ (payload p).length = M ∧
      (payload (recvfrom_short M pad p)).take (M - 1) = (payload p).take (M - 1) := by
  have hp : payload p = p.data := by
    simp only [payload, hl, Int.toNat_ofNat]
    exact List.take_of_length_le (by omega)
  cases pad with
  | true => simp [recvfrom_short, hp, hd]
  | false =>
    have hc : payload (recvfrom_short M false p)
        = p.data.take (M - 1) ++ (List.replicate M (0 : Byte)).drop (M - 1) := by
      simp only [payload, recvfrom_short, Bool.false_eq_true, if_false, memcpy, memset_zero, hl,
        Int.toNat_ofNat]
      exact List.take_of_length_le (by simp; omega)
    rw [hc, hp]
    refine ⟨by simp; omega, hd, ?_⟩
    rw [List.take_append_of_le_length (by rw [List.length_take]; omega), List.take_take]
    congr 1
    omega

theorem blocks_agree (M : Nat) (hM : 0 < M) (f g : RUDP_Packet → List Byte) :
    ∀ (ps : List RUDP_Packet),
    (∀ p ∈ ps, (f p).length = M ∧ (g p).length = M ∧ (f p).take (M - 1) = (g p).take (M - 1)) →
    ∀ (t : List Byte),
      ((ps.map f).flatten ++ t).length = ((ps.map g).flatten ++ t).length ∧
      ∀ i : Nat, (i + 1) % M ≠ 0 →
        ((ps.map f).flatten ++ t)[i]? = ((ps.map g).flatten ++ t)[i]? := by
  intro ps
  induction ps with
  | nil => intro _ t; simp
  | cons p ps ih =>
    intro h t
    have hp := h p (by simp)
    have hih := ih (fun x hx => h x (List.mem_cons_of_mem _ hx)) t
    simp only [List.map_cons, List.flatten_cons, List.append_assoc]
    refine ⟨?_, ?_⟩
    · have h1 := hih.1
      simp only [List.length_append] at h1 ⊢
      rw [hp.1, hp.2.1, h1]
    · intro i hi
      by_cases hlt : i < M
      · have hi1 : i < M - 1 := by
          by_contra hc
          have : i + 1 = M := by omega
          rw [this, Nat.mod_self] at hi
          exact hi rfl
        rw [List.getElem?_append_left (by rw [hp.1]; exact hlt),
          List.getElem?_append_left (by rw [hp.2.1]; exact hlt),
          ← List.getElem?_take_of_lt hi1, ← List.getElem?_take_of_lt (l := g p) hi1, hp.2.2]
      · have hge : M ≤ i := by omega
        have e1 : (f p ++ ((ps.map f).flatten ++ t))[i]?
            = ((ps.map f).flatten ++ t)[i - M]? := by
          rw [List.getElem?_append_right (by rw [hp.1]; exact hge), hp.1]
        have e2 : (g p ++ ((ps.map g).flatten ++ t))[i]?
            = ((ps.map g).flatten ++ t)[i - M]? := by
          rw [List.getElem?_append_right (by rw [hp.2.1]; exact hge), hp.2.1]
        rw [e1, e2]
        apply hih.2
        have : i - M + 1 + M = i + 1 := by omega
        rw [← this, Nat.add_mod_right] at hi
        exact hi

theorem full_chunk_region (M : Nat) (data : List Byte) (i : Nat) (hi : i < data.length / M) :
    (full_chunk M data (data.length / M) (data.length % M) i).data.length = M := by
  rw [full_chunk_eq_spec M data i hi]
  simp [spec_encode, slice_length M data i hi]

theorem last_chunk_region (M : Nat) (hM : 0 < M) (data : List Byte) :
    (last_chunk M data (data.length / M) (data.length % M)).data.length = M := by
  have hlt : data.length % M < M := Nat.mod_lt _ hM
  have hlen : (data.drop (data.length / M * M)).length = data.length % M := by
    rw [List.length_drop]
    have := Nat.div_add_mod data.length M
    have h2 : data.length / M * M = M * (data.length / M) := Nat.mul_comm _ _
    omega
  rw [last_chunk_eq_spec M hM data]
  simp only [spec_encode, List.length_append, List.length_replicate, hlen]
  omega

theorem last_chunk_short_payload (M : Nat) (hM : 0 < M) (pad : Bool) (data : List Byte) :
    payload (recvfrom_short M pad
        (last_chunk M data (data.length / M) (data.length % M)))
      = payload (last_chunk M data (data.length / M) (data.length % M)) := by
  apply payload_recvfrom_short_below
  · have hlt : data.length % M < M := Nat.mod_lt _ hM
    simp only [last_chunk, Int.toNat_ofNat]
    exact hlt
  · exact last_chunk_region M hM data

theorem delivered_off_chunk_ends (M : Nat) (hM : 0 < M) (pad : Bool) (data : List Byte) :
    (((chunks M data).map (recvfrom_short M pad)).map payload).flatten.length = data.length ∧
      ∀ i : Nat, (i + 1) % M ≠ 0 →
        (((chunks M data).map (recvfrom_short M pad)).map payload).flatten[i]? = data[i]? := by
  have hdata := chunks_payload M hM data
  have hfull : ∀ p ∈ (List.range (data.length / M)).map
      (full_chunk M data (data.length / M) (data.length % M)),
      (payload (recvfrom_short M pad p)).length = M ∧ (payload p).length = M ∧
        (payload (recvfrom_short M pad p)).take (M - 1) = (payload p).take (M - 1) := by
    intro p hp
    simp only [List.mem_map, List.mem_range] at hp
    obtain ⟨i, hi, rfl⟩ := hp
    exact payload_recvfrom_short_full M hM pad _ (full_chunk_length M data _ _ i)
      (full_chunk_region M data i hi)
  have hB := blocks_agree M hM (fun p => payload (recvfrom_short M pad p)) payload _ hfull
    (((if data.length % M > 0 then
        [last_chunk M data (data.length / M) (data.length % M)] else []).map payload).flatten)
  have htail : (((if data.length % M > 0 then
      [last_chunk M data (data.length / M) (data.length % M)] else []).map
        (recvfrom_short M pad)).map payload).flatten
      = ((if data.length % M > 0 then
        [last_chunk M data (data.length / M) (data.length % M)] else []).map payload).flatten := by
    by_cases hl : data.length % M > 0
    · simp only [hl, if_true, List.map_cons, List.map_nil]
      rw [last_chunk_short_payload M hM pad data]
    · simp [hl]
  have hL : (((chunks M data).map (recvfrom_short M pad)).map payload).flatten
      = (((List.range (data.length / M)).map
          (full_chunk M data (data.length / M) (data.length % M))).map
            (fun p => payload (recvfrom_short M pad p))).flatten ++
        ((if data.length % M > 0 then
          [last_chunk M data (data.length / M) (data.length % M)] else []).map payload).flatten := by
    simp only [chunks, List.map_append, List.flatten_append, htail]
    simp [List.map_map, Function.comp_def]
  have hR : data
      = (((List.range (data.length / M)).map
          (full_chunk M data (data.length / M) (data.length % M))).map payload).flatten ++
        ((if data.length % M > 0 then
          [last_chunk M data (data.length / M) (data.length % M)] else []).map payload).flatten := by
    conv_lhs => rw [← hdata]
    simp only [chunks, List.map_append, List.flatten_append]
  rw [hL]
  refine ⟨?_, ?_⟩
  · rw [hB.1]
    conv_rhs => rw [hR]
  · intro i hi
    rw [hB.2 i hi]
    conv_rhs => rw [hR]

theorem lossless_receive_results (M : Nat) (hM : 0 < M) (pad : Bool) (data : List Byte)
    (hne : data ≠ []) :
    (lossless_receive M pad data).map (fun r => r.ret)
        = List.replicate ((chunks M data).length - 1) 1 ++ [5] ∧
      delivered (lossless_receive M pad data)
        = (((chunks M data).map (recvfrom_short M pad)).map payload).flatten := by
  obtain ⟨body, q, hsplit, hbody, hq⟩ := chunks_split M data hne
  have hwf := chunks_wellformed M hM data
  have hseq := chunks_seq M data
  rw [hsplit] at hwf hseq
  have hqwf := hwf q (by simp)
  simp only [List.map_append, List.length_append, List.length_singleton, List.range_succ,
    List.map_cons, List.map_nil] at hseq
  have hseq2 := List.append_inj hseq (by simp)
  have hmain := receive_all_in_order M (body.map (recvfrom_short M pad)) 0
    (by
      intro p hp
      simp only [List.mem_map] at hp
      obtain ⟨x, hx, rfl⟩ := hp
      have hh := recvfrom_short_header M pad x
      have hw := hwf x (by simp [hx])
      rw [hh.2.2.2, hh.2.2.1, hh.2.1]
      exact ⟨hw.1, hw.2.1, hw.2.2.1, hbody x hx⟩)
    (by
      rw [List.map_map, List.length_map]
      have : ((fun p => p.sequalNum) ∘ recvfrom_short M pad)
          = (fun p : RUDP_Packet => p.sequalNum) := by
        funext p
        exact (recvfrom_short_header M pad p).1
      rw [this, hseq2.1, List.range_eq_range'])
    (recvfrom_short M pad q)
    (by
      have hh := recvfrom_short_header M pad q
      rw [hh.2.2.2, hh.2.2.1]; exact hqwf.1)
    (by rw [(recvfrom_short_header M pad q).2.1]; exact hqwf.2.1)
    (by rw [(recvfrom_short_header M pad q).2.1]; exact hqwf.2.2.1)
    (by rw [(recvfrom_short_header M pad q).2.1]; exact hq)
    (by
      rw [(recvfrom_short_header M pad q).1, List.length_map]
      simpa using hseq2.2)
  simp only [Nat.cast_zero, List.length_map] at hmain
  simp only [lossless_receive, hsplit, List.map_append, List.map_cons, List.map_nil,
    List.length_append, List.length_singleton, Nat.add_sub_cancel]
  simp only [List.map_append, List.map_cons, List.map_nil] at hmain
  exact hmain

theorem loopback_lossless_receive (M : Nat) (pad : Bool) (data : List Byte) :
    loopback_rounds (lossless_receive M pad data) = (chunks M data).map (ack_round M) := by
  simp only [lossless_receive, loopback_rounds_receive_all, List.map_map]
  apply List.map_congr_left
  intro p _
  exact ack_round_recvfrom_short M pad p

/-- C1 (round trip, for a non-empty buffer, the last byte of each full chunk
apart): the packets `rudp_send` builds for `data` arrive in order, once each, at
successive `rudp_receive` calls starting from `seq_number = 0`, each through the
`recvfrom` of line 105, and the sender runs against the acknowledgments those
calls transmit.  Then `rudp_send` returns 1 having transmitted exactly those
packets, the payloads delivered have together the length of `data` and equal
`data` at every byte that is not the last byte of a full chunk of `MAX_SIZE`
bytes, exactly one call returns 5, and it is the last call.  This holds whether
or not the structure ends in padding. -/
theorem round_trip (MAX_SIZE : Nat) (hM : 0 < MAX_SIZE) (tail_padding : Bool)
    (data : List Byte) (hne : data ≠ []) :
    RoundTripOffChunkEnds MAX_SIZE tail_padding data := by
  have hres := lossless_receive_results MAX_SIZE hM tail_padding data hne
  have hoff := delivered_off_chunk_ends MAX_SIZE hM tail_padding data
  simp only [RoundTripOffChunkEnds, loopback_lossless_receive]
  refine ⟨(rudp_send_lossless MAX_SIZE data).1, (rudp_send_lossless MAX_SIZE data).2, ?_, ?_,
    ?_, ?_⟩
  · rw [hres.2]; exact hoff.1
  · intro i hi
    rw [hres.2]; exact hoff.2 i hi
  · rw [hres.1, List.count_append, List.count_replicate]
    simp
  · rw [hres.1]; simp

/-- The round trip is exact when the structure ends in padding: the byte that
line 105 leaves out is then not a byte of the payload. -/
theorem round_trip_with_padding (MAX_SIZE : Nat) (hM : 0 < MAX_SIZE) (data : List Byte)
    (hne : data ≠ []) : RoundTrip MAX_SIZE true data := by
  have hres := lossless_receive_results MAX_SIZE hM true data hne
  simp only [RoundTrip, loopback_lossless_receive]
  refine ⟨(rudp_send_lossless MAX_SIZE data).1, (rudp_send_lossless MAX_SIZE data).2, ?_, ?_,
    ?_⟩
  · rw [hres.2]
    have hid : (chunks MAX_SIZE data).map (recvfrom_short MAX_SIZE true)
        = chunks MAX_SIZE data := by
      have : recvfrom_short MAX_SIZE true = id := by funext p; simp [recvfrom_short]
      rw [this, List.map_id]
    rw [hid]
    exact chunks_payload MAX_SIZE hM data
  · rw [hres.1, List.count_append, List.count_replicate]
    simp
  · rw [hres.1]; simp

/-- C1, counterexample: for the empty buffer `rudp_send` returns 1 without
transmitting anything, so no `rudp_receive` call takes place and none returns 5,
whatever the layout of the structure. -/
theorem round_trip_empty_buffer :
    rudp_send 4 true [] [] = { events := [], ret := some 1 } ∧
      lossless_receive 4 false [] = [] ∧ lossless_receive 4 true [] = [] ∧
      ¬ RoundTrip 4 false [] ∧ ¬ RoundTrip 4 true [] := by
  refine ⟨by decide, by decide, by decide, ?_, ?_⟩
  · unfold RoundTrip
    decide
  · unfold RoundTrip
    decide

/-- The one-byte-short `recvfrom` of line 105 at work: with `MAX_SIZE = 4` and no
padding after the payload region, the buffer `[1, 2, 3, 9]` is delivered as
`[1, 2, 3, 0]`, with a single return of 5. -/
theorem round_trip_last_byte_lost :
    delivered (lossless_receive 4 false [1, 2, 3, 9]) = [1, 2, 3, 0] ∧
      (lossless_receive 4 false [1, 2, 3, 9]).map (fun r => r.ret) = [5] ∧
      ¬ RoundTrip 4 false [1, 2, 3, 9] := by
  refine ⟨by decide, by decide, ?_⟩
  unfold RoundTrip
  decide

/-- C1, witness: the round trip of a five-byte buffer with `MAX_SIZE = 2` and no
padding after the payload region. -/
theorem round_trip_witness :
    0 < 2 ∧ ([1, 2, 3, 4, 5] : List Byte) ≠ [] ∧
      RoundTripOffChunkEnds 2 false [1, 2, 3, 4, 5] :=
  ⟨by decide, by decide, round_trip 2 (by decide) false [1, 2, 3, 4, 5] (by decide)⟩

/-- C2, witness: a three-byte buffer with `MAX_SIZE = 2`, the first packet being
retransmitted once after a wait that received nothing. -/
theorem rudp_send_segmentation_witness :
    (rudp_send 2 true [1, 2, 3]
        [⟨true, []⟩, ack_round 2 (memset_zero 2),
          ack_round 2 { memset_zero 2 with sequalNum := 1 }]).ret = some 1 ∧
      collapse (transmitted (rudp_send 2 true [1, 2, 3]
        [⟨true, []⟩, ack_round 2 (memset_zero 2),
          ack_round 2 { memset_zero 2 with sequalNum := 1 }]).events)
        = spec_segments 2 [1, 2, 3] :=
  ⟨by decide, (rudp_send_segmentation 2 (by decide) [1, 2, 3]
      [⟨true, []⟩, ack_round 2 (memset_zero 2),
        ack_round 2 { memset_zero 2 with sequalNum := 1 }] (by decide)).1⟩

/-- C3, counterexample: with `MAX_SIZE = 2` a two-byte buffer is sent as one
packet of length 2 carrying `fin`; `rudp_send` returns 1 and no packet of length 0
is transmitted. -/
theorem rudp_send_no_empty_chunk :
    (rudp_send 2 true [7, 9] [ack_round 2 (memset_zero 2)]).ret = some 1 ∧
      (transmitted (rudp_send 2 true [7, 9] [ack_round 2 (memset_zero 2)]).events).map
          (fun p => (p.length, p.flags.fin)) = [(2, true)] ∧
      ¬ ∃ p ∈ transmitted (rudp_send 2 true [7, 9] [ack_round 2 (memset_zero 2)]).events,
          p.length = 0 := by
  decide

/-- C3, witness: `MAX_SIZE = 2` and a two-byte buffer. -/
theorem rudp_send_boundary_witness :
    (rudp_send 2 true [7, 9] [ack_round 2 (memset_zero 2)]).ret = some 1 ∧
      (collapse (transmitted (rudp_send 2 true [7, 9] [ack_round 2 (memset_zero 2)]).events)).map
          (fun p => (p.length, p.flags.fin)) = [(((2 : Nat) : Int), true)] :=
  ⟨by decide, (rudp_send_boundary 2 (by decide) [7, 9] [ack_round 2 (memset_zero 2)]
      (by decide)).2.1 (by decide)⟩

/-- C4 (checksum rejection, as the code has it): for every received packet with
`checksum != length` and every `seq_number`, `rudp_receive` returns -1 (the value
it also returns on failures, not 0), stores nothing through `buffer` and `size`,
and leaves `seq_number` unchanged, so that a following valid in-order data packet
is still accepted (its payload is delivered with return 5 or 1). -/
theorem rudp_receive_bad_checksum (MAX_SIZE : Nat) (seq_number : Int) (env : RecvEnv)
    (p : RUDP_Packet) (hrecv : env.recvfrom = some p) (hbad : p.checksum ≠ p.length) :
    (rudp_receive MAX_SIZE seq_number env).ret = -1 ∧
      (rudp_receive MAX_SIZE seq_number env).out = none ∧
      (rudp_receive MAX_SIZE seq_number env).seq_number = seq_number ∧
      ∀ (next : RecvEnv) (q : RUDP_Packet), next.malloc_rudp = true →
        next.recvfrom = some q → next.malloc_ack = true → next.sendto_ack = true →
        next.malloc_buffer = true → q.checksum = q.length → q.flags.isSyn = false →
        q.flags.isData = true → q.sequalNum = seq_number →
        (rudp_receive MAX_SIZE (rudp_receive MAX_SIZE seq_number env).seq_number next).out
            = some (q.data.take q.length.toNat, q.length) ∧
          (rudp_receive MAX_SIZE (rudp_receive MAX_SIZE seq_number env).seq_number next).ret
            = (if q.flags.fin = true then 5 else 1) := by
  have hck : calculate_checksum p ≠ p.checksum := by
    simp only [calculate_checksum, zero_add]; exact fun h => hbad h.symm
  have hmain : (rudp_receive MAX_SIZE seq_number env).ret = -1 ∧
      (rudp_receive MAX_SIZE seq_number env).out = none ∧
      (rudp_receive MAX_SIZE seq_number env).seq_number = seq_number := by
    simp only [rudp_receive, hrecv]
    by_cases h1 : env.malloc_rudp = false
    · simp [h1]
    · by_cases h2 : (send_ack MAX_SIZE env.malloc_ack env.sendto_ack p).1 = -1
      · simp [h1, h2]
      · simp [h1, h2, hck]
  refine ⟨hmain.1, hmain.2.1, hmain.2.2, ?_⟩
  intro next q n1 n2 n3 n4 n5 qc qs qd qseq
  rw [hmain.2.2, rudp_receive_data MAX_SIZE seq_number next q n1 n2 n3 n4 n5 qc qs qd qseq]
  exact ⟨rfl, rfl⟩

/-- C4, counterexample: a packet with `length = 0` and `checksum = 1`, received
with every allocation and transmit succeeding, makes `rudp_receive` return -1,
not 0. -/
theorem rudp_receive_bad_checksum_not_zero :
    (rudp_receive 2 0 (deliver { memset_zero 2 with checksum := 1 })).ret = -1 ∧
      ¬ (rudp_receive 2 0 (deliver { memset_zero 2 with checksum := 1 })).ret = 0 := by
  decide

/-- C4, witness: a bad packet received when `seq_number = 3`. -/
theorem rudp_receive_bad_checksum_witness :
    (rudp_receive 2 3 (deliver { memset_zero 2 with checksum := 1 })).ret = -1 ∧
      (rudp_receive 2 3 (deliver { memset_zero 2 with checksum := 1 })).out = none ∧
      (rudp_receive 2 3 (deliver { memset_zero 2 with checksum := 1 })).seq_number = 3 :=
  have h := rudp_receive_bad_checksum 2 3 (deliver { memset_zero 2 with checksum := 1 })
    { memset_zero 2 with checksum := 1 } rfl (by decide)
  ⟨h.1, h.2.1, h.2.2.1⟩

/-- C5 (in-order data): for every checksum-valid packet with `isSyn` clear,
`isData` set and `sequalNum == seq_number`, the acknowledgment's transmit and the
allocations succeeding, `rudp_receive` stores the first `length` bytes of the
payload region through `buffer` and `length` through `size`; if `fin` is set it
returns 5 and resets `seq_number` to 0, otherwise it returns 1 and increments
`seq_number` by exactly 1. -/
theorem rudp_receive_in_order (MAX_SIZE : Nat) (seq_number : Int) (env : RecvEnv)
    (p : RUDP_Packet) (h1 : env.malloc_rudp = true) (h2 : env.recvfrom = some p)
    (h3 : env.malloc_ack = true) (h4 : env.sendto_ack = true)
    (h5 : env.malloc_buffer = true) (hc : p.checksum = p.length)
    (hsyn : p.flags.isSyn = false) (hdata : p.flags.isData = true)
    (hseq : p.sequalNum = seq_number) :
    (rudp_receive MAX_SIZE seq_number env).out
        = some (p.data.take p.length.toNat, p.length) ∧
      (p.flags.fin = true →
        (rudp_receive MAX_SIZE seq_number env).ret = 5 ∧
        (rudp_receive MAX_SIZE seq_number env).seq_number = 0) ∧
      (p.flags.fin = false →
        (rudp_receive MAX_SIZE seq_number env).ret = 1 ∧
        (rudp_receive MAX_SIZE seq_number env).seq_number = seq_number + 1) := by
  rw [rudp_receive_data MAX_SIZE seq_number env p h1 h2 h3 h4 h5 hc hsyn hdata hseq]
  refine ⟨rfl, ?_, ?_⟩
  · intro hf; simp [hf]
  · intro hf; simp [hf]

/-- C5, witness: the second packet of a five-byte message with `MAX_SIZE = 2`,
received when `seq_number = 1`. -/
theorem rudp_receive_in_order_witness :
    (rudp_receive 2 1 (deliver (full_chunk 2 [1, 2, 3, 4, 5] 2 1 1))).out
        = some ([3, 4], 2) ∧
      (rudp_receive 2 1 (deliver (full_chunk 2 [1, 2, 3, 4, 5] 2 1 1))).ret = 1 ∧
      (rudp_receive 2 1 (deliver (full_chunk 2 [1, 2, 3, 4, 5] 2 1 1))).seq_number = 1 + 1 :=
  have h := rudp_receive_in_order 2 1 (deliver (full_chunk 2 [1, 2, 3, 4, 5] 2 1 1))
    (full_chunk 2 [1, 2, 3, 4, 5] 2 1 1) rfl rfl rfl rfl rfl (by decide) (by decide)
    (by decide) (by decide)
  ⟨h.1, (h.2.2 (by decide)).1, (h.2.2 (by decide)).2⟩

/-- C6 (duplicate suppression): for every checksum-valid packet with `isSyn`
clear, `isData` set and `sequalNum != seq_number` (a redelivery of the packet just
consumed has `sequalNum == seq_number - 1`), received in a call whose
acknowledgment is transmitted, `rudp_receive` returns 0, stores nothing through
`buffer` and `size`, leaves `seq_number` unchanged, and has transmitted exactly
one packet: an acknowledgment carrying the packet's `sequalNum`. -/
theorem rudp_receive_duplicate (MAX_SIZE : Nat) (seq_number : Int) (env : RecvEnv)
    (p : RUDP_Packet) (h1 : env.malloc_rudp = true) (h2 : env.recvfrom = some p)
    (h3 : env.malloc_ack = true) (h4 : env.sendto_ack = true)
    (hc : p.checksum = p.length) (hsyn : p.flags.isSyn = false)
    (hdata : p.flags.isData = true) (hseq : p.sequalNum ≠ seq_number) :
    (rudp_receive MAX_SIZE seq_number env).ret = 0 ∧
      (rudp_receive MAX_SIZE seq_number env).out = none ∧
      (rudp_receive MAX_SIZE seq_number env).seq_number = seq_number ∧
      ∃ a : RUDP_Packet, (rudp_receive MAX_SIZE seq_number env).sent = [a] ∧
        a.flags.ack = true ∧ a.sequalNum = p.sequalNum := by
  have hck : calculate_checksum p = p.checksum := by simp [calculate_checksum, hc]
  simp only [rudp_receive, h1, h2, h3, h4, send_ack_ok, hck, hsyn, hdata, hseq]
  simp [send_ack, ack_packet]

/-- C6, witness: the first packet of a message delivered again when
`seq_number = 1`. -/
theorem rudp_receive_duplicate_witness :
    (rudp_receive 2 1 (deliver (full_chunk 2 [1, 2, 3, 4, 5] 2 1 0))).ret = 0 ∧
      (rudp_receive 2 1 (deliver (full_chunk 2 [1, 2, 3, 4, 5] 2 1 0))).out = none ∧
      (rudp_receive 2 1 (deliver (full_chunk 2 [1, 2, 3, 4, 5] 2 1 0))).seq_number = 1 :=
  have h := rudp_receive_duplicate 2 1 (deliver (full_chunk 2 [1, 2, 3, 4, 5] 2 1 0))
    (full_chunk 2 [1, 2, 3, 4, 5] 2 1 0) rfl rfl rfl rfl (by decide) (by decide)
    (by decide) (by decide)
  ⟨h.1, h.2.1, h.2.2.1⟩

/-- C7 (unconditional ack): for every packet `p` that `rudp_receive` receives,
whatever its flags, checksum and `sequalNum`: when the acknowledgment can be
transmitted, the first packet `rudp_receive` transmits is the acknowledgment with
`ack` set, every other flag clear, `length` 0, `checksum` 0 and
`sequalNum == p.sequalNum`; when it cannot, nothing is transmitted and the call
returns -1 whatever the packet holds (the acknowledgment comes before the
checksum test and the classification).  That acknowledgment satisfies the match
condition of `wait_ack` for `p.sequalNum`. -/
theorem rudp_receive_ack_first (MAX_SIZE : Nat) (seq_number : Int) (env : RecvEnv)
    (p : RUDP_Packet) (h1 : env.malloc_rudp = true) (h2 : env.recvfrom = some p) :
    (env.malloc_ack = true ∧ env.sendto_ack = true →
        (rudp_receive MAX_SIZE seq_number env).sent.head? = some (ack_packet MAX_SIZE p)) ∧
      (¬ (env.malloc_ack = true ∧ env.sendto_ack = true) →
        (rudp_receive MAX_SIZE seq_number env).sent = [] ∧
        (rudp_receive MAX_SIZE seq_number env).ret = -1) ∧
      ack_packet MAX_SIZE p =
        { sequalNum := p.sequalNum
          flags := { isData := false, isSyn := false, ack := true, fin := false }
          length := 0
          checksum := 0
          data := List.replicate MAX_SIZE 0 } ∧
      ∀ window : List (Option RUDP_Packet),
        wait_ack p.sequalNum (some (ack_packet MAX_SIZE p) :: window) = 1 := by
  refine ⟨?_, ?_, ?_, ?_⟩
  · rintro ⟨h3, h4⟩
    have hs : send_ack MAX_SIZE true true p = (1, [ack_packet MAX_SIZE p]) := by
      simp [send_ack]
    simp only [rudp_receive, h1, h2, h3, h4, hs]
    simp only [Bool.true_eq_false, if_false]
    norm_num
    repeat' split
    all_goals simp
  · intro h
    have hs : send_ack MAX_SIZE env.malloc_ack env.sendto_ack p = (-1, []) := by
      simp only [send_ack]
      by_cases h3 : env.malloc_ack = false
      · simp [h3]
      · by_cases h4 : env.sendto_ack = false
        · simp [h4]
        · simp only [Bool.not_eq_false] at h3 h4
          exact absurd ⟨h3, h4⟩ h
    simp [rudp_receive, h1, h2, hs]
  · simp [ack_packet, memset_zero, calculate_checksum]
  · intro window
    simp [wait_ack, ack_matches, ack_packet, memset_zero, calculate_checksum]

/-- C7, witness: a packet with a bad checksum and `isSyn` and `fin` set is
acknowledged first all the same. -/
theorem rudp_receive_ack_first_witness :
    (rudp_receive 2 0 (deliver (RUDP_Packet.mk 7 ⟨false, true, false, true⟩ 1 9 [0, 0]))).sent.head?
      = some (ack_packet 2 (RUDP_Packet.mk 7 ⟨false, true, false, true⟩ 1 9 [0, 0])) :=
  (rudp_receive_ack_first 2 0
    (deliver (RUDP_Packet.mk 7 ⟨false, true, false, true⟩ 1 9 [0, 0]))
    (RUDP_Packet.mk 7 ⟨false, true, false, true⟩ 1 9 [0, 0]) rfl rfl).1 ⟨rfl, rfl⟩

theorem send_chunks_last_events (M : Nat) (data : List Byte) (n l : Nat) :
    ∀ (todo i : Nat) (env : List Round),
    (send_chunks M data n l (todo + 1) i env).2.1 = Outcome.done →
    ∃ (pre : List Event) (a : RUDP_Packet),
      (send_chunks M data n l (todo + 1) i env).1
        = pre ++ [Event.tx (full_chunk M data n l (i + todo)), Event.acked a] ∧
      a.flags.ack = true ∧ a.sequalNum = ((i + todo : Nat) : Int) := by
  intro todo
  induction todo with
  | zero =>
    intro i env h
    simp only [send_chunks] at h ⊢
    have hA := (send_until_ack_events (full_chunk M data n l i) (i : Int) env).1
    generalize send_until_ack (full_chunk M data n l i) (i : Int) env = q at h hA ⊢
    obtain ⟨ev, out, env1⟩ := q
    cases out with
    | done =>
      obtain ⟨k, a, hk, ha1, ha2⟩ := hA rfl
      simp only at hk
      exact ⟨List.replicate k (Event.tx (full_chunk M data n l i)), a,
        by simp [hk], ha1, by simpa using ha2⟩
    | failed => simp at h
    | running => simp at h
  | succ todo ih =>
    intro i env h
    rw [send_chunks] at h ⊢
    generalize send_until_ack (full_chunk M data n l i) (i : Int) env = q at h ⊢
    obtain ⟨ev, out, env1⟩ := q
    cases out with
    | done =>
      simp only at h ⊢
      obtain ⟨pre, a, hpre, ha1, ha2⟩ := ih (i + 1) env1 h
      refine ⟨ev ++ pre, a, ?_, ha1, ?_⟩
      · rw [hpre, List.append_assoc]
        have e : i + 1 + todo = i + (todo + 1) := by omega
        rw [e]
      · rw [ha2]; congr 1; omega
    | failed => simp at h
    | running => simp at h

/-- C8 (success only after the final acknowledgment, for a non-empty buffer):
for every non-empty buffer and every behaviour of the peer, if `rudp_send` returns
1 then the last two things it did were to transmit the final packet of the
message, a data packet carrying `fin`, and then to match in `wait_ack` a received
packet with `ack` set whose `sequalNum` equals that packet's. -/
theorem rudp_send_success (MAX_SIZE : Nat) (malloc_ok : Bool)
    (data : List Byte) (hne : data ≠ []) (env : List Round)
    (hret : (rudp_send MAX_SIZE malloc_ok data env).ret = some 1) :
    ∃ (pre : List Event) (p a : RUDP_Packet),
      (rudp_send MAX_SIZE malloc_ok data env).events = pre ++ [Event.tx p, Event.acked a] ∧
      p.flags.fin = true ∧ p.flags.isData = true ∧
      a.flags.ack = true ∧ a.sequalNum = p.sequalNum ∧
      (chunks MAX_SIZE data).getLast? = some p := by
  cases malloc_ok with
  | false => simp [rudp_send] at hret
  | true =>
    have hpos : 0 < data.length := List.length_pos.mpr hne
    simp only [rudp_send, chunks, Bool.true_eq_false, if_false] at hret ⊢
    by_cases hl : data.length % MAX_SIZE > 0
    · generalize send_chunks MAX_SIZE data (data.length / MAX_SIZE) (data.length % MAX_SIZE)
        (data.length / MAX_SIZE) 0 env = q at hret ⊢
      obtain ⟨ev, out, env1⟩ := q
      cases out with
      | done =>
        simp only [hl, if_true] at hret ⊢
        have hA := (send_until_ack_events (last_chunk MAX_SIZE data (data.length / MAX_SIZE)
          (data.length % MAX_SIZE)) ((data.length / MAX_SIZE : Nat) : Int) env1).1
        generalize send_until_ack (last_chunk MAX_SIZE data (data.length / MAX_SIZE)
          (data.length % MAX_SIZE)) ((data.length / MAX_SIZE : Nat) : Int) env1 = f
          at hret hA ⊢
        obtain ⟨ev2, out2, env2⟩ := f
        cases out2 with
        | done =>
          obtain ⟨k, a, hk, ha1, ha2⟩ := hA rfl
          simp only at hk
          refine ⟨ev ++ List.replicate k (Event.tx (last_chunk MAX_SIZE data
            (data.length / MAX_SIZE) (data.length % MAX_SIZE))),
            last_chunk MAX_SIZE data (data.length / MAX_SIZE) (data.length % MAX_SIZE),
            a, ?_, ?_, ?_, ha1, ?_, ?_⟩
          · simp only [hk, List.append_assoc]
          · simp [last_chunk]
          · simp [last_chunk]
          · rw [ha2]; simp [last_chunk]
          · simp
        | failed => simp [ret_of] at hret
        | running => simp [ret_of] at hret
      | failed => simp [ret_of] at hret
      | running => simp [ret_of] at hret
    · have hl0 : data.length % MAX_SIZE = 0 := by omega
      have hk : 0 < data.length / MAX_SIZE := by
        rcases Nat.eq_zero_or_pos (data.length / MAX_SIZE) with h | h
        · have := Nat.div_add_mod data.length MAX_SIZE
          rw [h, hl0] at this
          omega
        · exact h
      obtain ⟨k, hk1⟩ : ∃ k, data.length / MAX_SIZE = k + 1 :=
        ⟨data.length / MAX_SIZE - 1, by omega⟩
      rw [hk1, hl0] at hret ⊢
      have hB := send_chunks_last_events MAX_SIZE data (k + 1) 0 k 0 env
      generalize send_chunks MAX_SIZE data (k + 1) 0 (k + 1) 0 env = q at hret hB ⊢
      obtain ⟨ev, out, env1⟩ := q
      cases out with
      | done =>
        obtain ⟨pre, a, hpre, ha1, ha2⟩ := hB rfl
        simp only [Nat.zero_add] at hpre ha2
        simp only [lt_irrefl, if_false, List.append_nil] at hret ⊢
        refine ⟨pre, full_chunk MAX_SIZE data (k + 1) 0 k, a, hpre, ?_, ?_, ha1, ?_, ?_⟩
        · rw [full_chunk_fin]; simp
        · simp only [full_chunk]; split <;> rfl
        · rw [ha2, full_chunk_seq]
        · rw [List.range_succ, List.map_append]; simp
      | failed => simp [ret_of] at hret
      | running => simp [ret_of] at hret

/-- C8, counterexample: for the empty buffer `rudp_send` returns 1 although it
has transmitted nothing and matched no acknowledgment, whatever the peer does. -/
theorem rudp_send_empty_returns_one :
    (rudp_send 4 true [] [⟨true, [none]⟩]).ret = some 1 ∧
      (rudp_send 4 true [] [⟨true, [none]⟩]).events = [] := by
  decide

/-- C8, witness: a three-byte buffer with `MAX_SIZE = 2`, both packets
acknowledged on the first wait. -/
theorem rudp_send_success_witness :
    ∃ (pre : List Event) (p a : RUDP_Packet),
      (rudp_send 2 true [1, 2, 3]
        [ack_round 2 (memset_zero 2), ack_round 2 (RUDP_Packet.mk 1 ⟨false, false, false, false⟩ 0 0 [])]).events
        = pre ++ [Event.tx p, Event.acked a] ∧
      p.flags.fin = true ∧ p.flags.isData = true ∧
      a.flags.ack = true ∧ a.sequalNum = p.sequalNum ∧
      (chunks 2 [1, 2, 3]).getLast? = some p :=
  rudp_send_success 2 true [1, 2, 3] (by decide)
    [ack_round 2 (memset_zero 2), ack_round 2 (RUDP_Packet.mk 1 ⟨false, false, false, false⟩ 0 0 [])]
    (by decide)

theorem connect_attempts_sent (M : Nat) (attempt : Nat → Attempt) :
    ∀ (todo k : Nat), (connect_attempts M attempt todo k).2.length ≤ todo ∧
      ∀ q ∈ (connect_attempts M attempt todo k).2, q = syn_packet M := by
  intro todo
  induction todo with
  | zero => intro k; simp [connect_attempts]
  | succ todo ih =>
    intro k
    simp only [connect_attempts]
    cases hs : (attempt k).sendto_ok with
    | false => simp
    | true =>
      simp only [Bool.true_eq_false, if_false]
      cases hw : connect_window ((attempt k).first :: (attempt k).more) with
      | some r => simp
      | none =>
        have h := ih (k + 1)
        simp only [List.length_cons, List.mem_cons]
        exact ⟨by omega, fun q hq => hq.elim id (h.2 q)⟩

theorem connect_window_match (pre : List RUDP_Packet) (r : RUDP_Packet)
    (rest : List (Option RUDP_Packet))
    (hpre : ∀ q ∈ pre, ¬ (q.flags.isSyn = true ∧ q.flags.ack = true))
    (hr : r.flags.isSyn = true ∧ r.flags.ack = true) :
    connect_window (pre.map some ++ some r :: rest) = some 1 := by
  induction pre with
  | nil => simp [connect_window, hr]
  | cons q pre ih =>
    have hq := hpre q (by simp)
    simp only [List.map_cons, List.cons_append, connect_window, hq, if_false]
    exact ih (fun x hx => hpre x (List.mem_cons_of_mem _ hx))

theorem connect_window_no_match (w : List RUDP_Packet)
    (hw : ∀ q ∈ w, ¬ (q.flags.isSyn = true ∧ q.flags.ack = true)) :
    connect_window (w.map some) = none := by
  induction w with
  | nil => rfl
  | cons q w ih =>
    have hq := hw q (by simp)
    simp only [List.map_cons, connect_window, hq, if_false]
    exact ih (fun x hx => hw x (List.mem_cons_of_mem _ hx))

/-- The parts of C9 that hold on the code: `rudp_connect` transmits at most three
packets, each the SYN packet (`isSyn` set and nothing else); if a window receives
a packet with `isSyn` and `ack` set after packets without that pair, the function
returns 1 in that attempt; and if each of the three windows receives only packets
without that pair, it returns 0 after three SYN packets. -/
theorem rudp_connect_attempts (MAX_SIZE : Nat) (env : ConnectEnv) :
    (rudp_connect MAX_SIZE env).sent.length ≤ 3 ∧
      (∀ q ∈ (rudp_connect MAX_SIZE env).sent,
        q = { memset_zero MAX_SIZE with
              flags := { isData := false, isSyn := true, ack := false, fin := false } }) ∧
      (env.set_timeout_ok = true → env.inet_pton_ok = true → env.connect_ok = true →
        env.malloc_ok = true → (env.attempt 0).sendto_ok = true →
        (∀ (pre : List RUDP_Packet) (r : RUDP_Packet) (rest : List (Option RUDP_Packet)),
          (env.attempt 0).first :: (env.attempt 0).more = pre.map some ++ some r :: rest →
          (∀ q ∈ pre, ¬ (q.flags.isSyn = true ∧ q.flags.ack = true)) →
          r.flags.isSyn = true ∧ r.flags.ack = true →
          (rudp_connect MAX_SIZE env).ret = 1 ∧
          (rudp_connect MAX_SIZE env).sent = [syn_packet MAX_SIZE])) ∧
      (env.set_timeout_ok = true → env.inet_pton_ok = true → env.connect_ok = true →
        env.malloc_ok = true →
        (∀ k, k < 3 → (env.attempt k).sendto_ok = true ∧
          ∃ w : List RUDP_Packet, (env.attempt k).first :: (env.attempt k).more = w.map some ∧
            ∀ q ∈ w, ¬ (q.flags.isSyn = true ∧ q.flags.ack = true)) →
        (rudp_connect MAX_SIZE env).ret = 0 ∧
        (rudp_connect MAX_SIZE env).sent
          = [syn_packet MAX_SIZE, syn_packet MAX_SIZE, syn_packet MAX_SIZE]) := by
  refine ⟨?_, ?_, ?_, ?_⟩
  · simp only [rudp_connect]
    repeat' split
    all_goals first
      | exact (connect_attempts_sent MAX_SIZE env.attempt 3 0).1
      | simp
  · intro q hq
    have hsyn : syn_packet MAX_SIZE = { memset_zero MAX_SIZE with
        flags := { isData := false, isSyn := true, ack := false, fin := false } } := by
      simp [syn_packet, memset_zero]
    rw [← hsyn]
    simp only [rudp_connect] at hq
    repeat' split at hq
    all_goals first
      | exact (connect_attempts_sent MAX_SIZE env.attempt 3 0).2 q hq
      | simp at hq
  · intro h1 h2 h3 h4 h5 pre r rest hw hpre hr
    have := connect_window_match pre r rest hpre hr
    rw [← hw] at this
    simp [rudp_connect, h1, h2, h3, h4, connect_attempts, h5, this]
  · intro h1 h2 h3 h4 hall
    have hk : ∀ k, k < 3 → (env.attempt k).sendto_ok = true ∧
        connect_window ((env.attempt k).first :: (env.attempt k).more) = none := by
      intro k hk
      obtain ⟨hs, w, hw, hq⟩ := hall k hk
      exact ⟨hs, by rw [hw]; exact connect_window_no_match w hq⟩
    have h0 := hk 0 (by omega)
    have h1' := hk 1 (by omega)
    have h2' := hk 2 (by omega)
    simp [rudp_connect, h1, h2, h3, h4, connect_attempts, h0.1, h0.2, h1'.1, h1'.2,
      h2'.1, h2'.2]

/-- C9, the failing input: against a peer that never answers, the first
`recvfrom` returns -1 when the one-second receive timeout expires, and
`rudp_connect` returns -1 after a single SYN packet; it neither makes three
attempts nor returns 0. -/
theorem rudp_connect_silent_peer :
    rudp_connect 2 silent_peer = { ret := -1, sent := [syn_packet 2], closed := false } ∧
      (rudp_connect 2 silent_peer).ret ≠ 0 := by
  decide

/-- C10 (passive open): after a successful `bind`, `recvfrom` and `connect`,
when the reply's `sendto` and the `setsockopt` of line 318 succeed, `rudp_accept`
returns 1 having transmitted exactly one packet, the reply with `isSyn` and `ack`
set and no other flag, if and only if the first received packet has `isSyn` set;
whenever it returns 1 the packet had `isSyn` set and that reply was transmitted;
and for every first packet without `isSyn` it transmits nothing and returns 0. -/
theorem rudp_accept_syn (MAX_SIZE : Nat) (env : AcceptEnv) (p : RUDP_Packet)
    (hbind : env.bind_ok = true) (hrecv : env.recvfrom = some p)
    (hconnect : env.connect_ok = true) :
    (env.sendto_ok = true → env.setsockopt_ok = true →
        (((rudp_accept MAX_SIZE env).ret = 1 ∧
            (rudp_accept MAX_SIZE env).sent = [syn_ack_packet MAX_SIZE])
          ↔ p.flags.isSyn = true)) ∧
      ((rudp_accept MAX_SIZE env).ret = 1 →
        p.flags.isSyn = true ∧ (rudp_accept MAX_SIZE env).sent = [syn_ack_packet MAX_SIZE]) ∧
      (p.flags.isSyn = false →
        (rudp_accept MAX_SIZE env).sent = [] ∧ (rudp_accept MAX_SIZE env).ret = 0) ∧
      syn_ack_packet MAX_SIZE =
        { memset_zero MAX_SIZE with
          flags := { isData := false, isSyn := true, ack := true, fin := false } } := by
  refine ⟨?_, ?_, ?_, ?_⟩
  · intro hs ht
    cases hsyn : p.flags.isSyn <;>
      simp [rudp_accept, hbind, hrecv, hconnect, hs, ht, hsyn]
  · cases hsyn : p.flags.isSyn <;> cases hs : env.sendto_ok <;>
      cases ht : env.setsockopt_ok <;>
      simp [rudp_accept, hbind, hrecv, hconnect, hs, ht, hsyn]
  · intro hsyn
    simp [rudp_accept, hbind, hrecv, hconnect, hsyn]
  · simp [syn_ack_packet, memset_zero]

/-- C10, witness: a SYN packet received, the reply sent and the timeout set. -/
theorem rudp_accept_syn_witness :
    ((rudp_accept 2 ⟨true, some (syn_packet 2), true, true, true⟩).ret = 1 ∧
        (rudp_accept 2 ⟨true, some (syn_packet 2), true, true, true⟩).sent
          = [syn_ack_packet 2])
      ↔ (syn_packet 2).flags.isSyn = true :=
  (rudp_accept_syn 2 ⟨true, some (syn_packet 2), true, true, true⟩ (syn_packet 2)
    rfl rfl rfl).1 rfl rfl

theorem send_until_ack_tx_any (p : RUDP_Packet) (s : Int) (env : List Round) :
    ∃ k, transmitted (send_until_ack p s env).1 = List.replicate k p := by
  by_cases h : (send_until_ack p s env).2.1 = Outcome.done
  · obtain ⟨k, hk⟩ := send_until_ack_tx p s env h
    exact ⟨k + 1, hk⟩
  · obtain ⟨k, hk⟩ := (send_until_ack_events p s env).2 h
    exact ⟨k, by rw [hk, transmitted_replicate_tx]⟩

theorem wait_ack_no_match (s : Int) (w : List (Option RUDP_Packet))
    (h : ∀ a, some a ∈ w → ¬ (a.flags.ack = true ∧ a.sequalNum = s)) :
    wait_ack s w ≤ 0 := by
  by_contra hc
  obtain ⟨a, _, hmem, h1, h2⟩ := wait_ack_pos s w hc
  exact h a hmem ⟨h1, h2⟩

theorem send_until_ack_silent (p : RUDP_Packet) (s : Int) :
    ∀ (silent rest : List Round),
    (∀ rd ∈ silent, rd.sendto_ok = true ∧ wait_ack s rd.window ≤ 0) →
    send_until_ack p s (silent ++ rest)
      = (List.replicate silent.length (Event.tx p) ++ (send_until_ack p s rest).1,
          (send_until_ack p s rest).2.1, (send_until_ack p s rest).2.2) := by
  intro silent
  induction silent with
  | nil => intro rest _; simp
  | cons rd silent ih =>
    intro rest h
    have hrd := h rd (by simp)
    rw [List.cons_append, send_until_ack]
    simp only [hrd.1, Bool.true_eq_false, if_false, hrd.2, if_true]
    rw [ih rest (fun x hx => h x (List.mem_cons_of_mem _ hx))]
    simp [List.replicate_succ]

theorem send_until_ack_never_matched (p : RUDP_Packet) (s : Int) : ∀ env : List Round,
    (∀ rd ∈ env, ∀ a, some a ∈ rd.window → ¬ (a.flags.ack = true ∧ a.sequalNum = s)) →
    (send_until_ack p s env).2.1 ≠ Outcome.done := by
  intro env
  induction env with
  | nil => intro _; simp [send_until_ack]
  | cons rd env ih =>
    intro h
    have hw := wait_ack_no_match s rd.window (h rd (by simp))
    simp only [send_until_ack]
    cases hs : rd.sendto_ok with
    | false => simp
    | true =>
      simp only [Bool.true_eq_false, if_false, hw, if_true]
      exact ih (fun x hx => h x (List.mem_cons_of_mem _ hx))

/-- C11 (active close): every packet `rudp_close` transmits is the same close
packet (`fin` set, `isData`, `isSyn` and `ack` clear, `sequalNum = -1`, `length` 0,
`checksum` 0); it is transmitted again after each wait that ends without a match,
however many there are; `rudp_close` returns 0 only after `wait_ack` has matched a
received packet with `ack` set and `sequalNum == -1`, the socket then being
closed; and packets with `ack` set but another `sequalNum`, or with
`sequalNum == -1` but `ack` clear, never end the loop. -/
theorem rudp_close_retransmits (MAX_SIZE : Nat) (malloc_ok : Bool) (env : List Round) :
    (∀ p ∈ transmitted (rudp_close MAX_SIZE malloc_ok env).events,
        p = close_packet MAX_SIZE) ∧
      close_packet MAX_SIZE =
        { sequalNum := -1
          flags := { isData := false, isSyn := false, ack := false, fin := true }
          length := 0
          checksum := 0
          data := List.replicate MAX_SIZE 0 } ∧
      ((rudp_close MAX_SIZE malloc_ok env).ret = some 0 →
        ∃ (pre : List Event) (a : RUDP_Packet),
          (rudp_close MAX_SIZE malloc_ok env).events
            = pre ++ [Event.tx (close_packet MAX_SIZE), Event.acked a] ∧
          a.flags.ack = true ∧ a.sequalNum = -1 ∧
          (rudp_close MAX_SIZE malloc_ok env).closed = true) ∧
      ((∀ rd ∈ env, ∀ a, some a ∈ rd.window → ¬ (a.flags.ack = true ∧ a.sequalNum = -1)) →
        (rudp_close MAX_SIZE malloc_ok env).ret ≠ some 0 ∧
        (rudp_close MAX_SIZE malloc_ok env).closed = false) ∧
      (∀ (silent : List Round) (good : Round) (rest : List Round),
        malloc_ok = true → env = silent ++ good :: rest →
        (∀ rd ∈ silent, rd.sendto_ok = true ∧ wait_ack (-1) rd.window ≤ 0) →
        good.sendto_ok = true → ¬ wait_ack (-1) good.window ≤ 0 →
        transmitted (rudp_close MAX_SIZE malloc_ok env).events
            = List.replicate (silent.length + 1) (close_packet MAX_SIZE) ∧
          (rudp_close MAX_SIZE malloc_ok env).ret = some 0) ∧
      (malloc_ok = true →
        (∀ rd ∈ env, rd.sendto_ok = true ∧ wait_ack (-1) rd.window ≤ 0) →
        transmitted (rudp_close MAX_SIZE malloc_ok env).events
            = List.replicate env.length (close_packet MAX_SIZE) ∧
          (rudp_close MAX_SIZE malloc_ok env).ret = none) := by
  refine ⟨?_, ?_, ?_, ?_, ?_, ?_⟩
  · intro p hp
    cases malloc_ok with
    | false => simp [rudp_close, transmitted] at hp
    | true =>
      simp only [rudp_close, Bool.true_eq_false, if_false] at hp
      obtain ⟨k, hk⟩ := send_until_ack_tx_any (close_packet MAX_SIZE) (-1) env
      rw [hk] at hp
      exact List.eq_of_mem_replicate hp
  · simp [close_packet, memset_zero, calculate_checksum]
  · intro hret
    cases malloc_ok with
    | false => simp [rudp_close] at hret
    | true =>
      simp only [rudp_close, Bool.true_eq_false, if_false] at hret ⊢
      have hdone : (send_until_ack (close_packet MAX_SIZE) (-1) env).2.1 = Outcome.done := by
        cases ho : (send_until_ack (close_packet MAX_SIZE) (-1) env).2.1 with
        | done => rfl
        | failed => rw [ho] at hret; simp [ret_of] at hret
        | running => rw [ho] at hret; simp [ret_of] at hret
      obtain ⟨k, a, hk, ha1, ha2⟩ :=
        (send_until_ack_events (close_packet MAX_SIZE) (-1) env).1 hdone
      exact ⟨List.replicate k (Event.tx (close_packet MAX_SIZE)), a, hk, ha1, ha2,
        by simp [hdone]⟩
  · intro h
    cases malloc_ok with
    | false => simp [rudp_close]
    | true =>
      have hnd := send_until_ack_never_matched (close_packet MAX_SIZE) (-1) env h
      simp only [rudp_close, Bool.true_eq_false, if_false]
      cases ho : (send_until_ack (close_packet MAX_SIZE) (-1) env).2.1 with
      | done => exact absurd ho hnd
      | failed => simp [ret_of]
      | running => simp [ret_of]
  · intro silent good rest hm henv hsil hg1 hg2
    subst hm
    subst henv
    simp only [rudp_close, Bool.true_eq_false, if_false]
    rw [send_until_ack_silent _ _ silent (good :: rest) hsil]
    simp only [send_until_ack, hg1, Bool.true_eq_false, if_false, hg2]
    obtain ⟨a, ha, _⟩ := wait_ack_pos (-1) good.window hg2
    simp [transmitted_append, transmitted_replicate_tx, transmitted, ack_event, ha, ret_of,
      List.replicate_succ']
  · intro hm hsil
    subst hm
    simp only [rudp_close, Bool.true_eq_false, if_false]
    have := send_until_ack_silent (close_packet MAX_SIZE) (-1) env [] hsil
    rw [List.append_nil] at this
    rw [this]
    simp [send_until_ack, transmitted_replicate_tx, ret_of]

/-- C11, witness: the close packet is sent three times, after a wait that
received nothing and a wait that received an acknowledgment of sequence 0, and the
third wait matches. -/
theorem rudp_close_retransmits_witness :
    transmitted (rudp_close 2 true
        [⟨true, [none]⟩, ack_round 2 (memset_zero 2), ack_round 2 (close_packet 2)]).events
        = List.replicate (2 + 1) (close_packet 2) ∧
      (rudp_close 2 true
        [⟨true, [none]⟩, ack_round 2 (memset_zero 2), ack_round 2 (close_packet 2)]).ret
        = some 0 :=
  (rudp_close_retransmits 2 true
    [⟨true, [none]⟩, ack_round 2 (memset_zero 2), ack_round 2 (close_packet 2)]).2.2.2.2.1
    [⟨true, [none]⟩, ack_round 2 (memset_zero 2)] (ack_round 2 (close_packet 2)) []
    rfl rfl (by decide) (by decide) (by decide)

theorem drain_loop_ret (M : Nat) : ∀ steps : List DrainStep,
    (drain_loop M steps).1 = none ∨ (drain_loop M steps).1 = some (-1) := by
  intro steps
  induction steps with
  | nil => simp [drain_loop]
  | cons s steps ih =>
    simp only [drain_loop]
    split
    · split
      · simp
      · exact ih
    · exact ih

theorem rudp_receive_payload_indep (M : Nat) (seq : Int) (env : RecvEnv) (p : RUDP_Packet)
    (d : List Byte) :
    rudp_receive M seq { env with recvfrom := some { p with data := d } }
      = { rudp_receive M seq { env with recvfrom := some p } with
          out := (rudp_receive M seq { env with recvfrom := some p }).out.map
            (fun o => (d.take p.length.toNat, o.2)) } := by
  have hs : ∀ a b, send_ack M a b { p with data := d } = send_ack M a b p := by
    intro a b; simp [send_ack, ack_packet]
  have hc : calculate_checksum { p with data := d } = calculate_checksum p := by
    simp [calculate_checksum]
  simp only [rudp_receive, hs, hc]
  cases env.malloc_rudp with
  | false => simp
  | true =>
    simp only [Bool.true_eq_false, if_false]
    by_cases h1 : (send_ack M env.malloc_ack env.sendto_ack p).1 = -1
    · simp [h1]
    · simp only [h1, if_false]
      by_cases h2 : calculate_checksum p ≠ p.checksum
      · simp [h2]
      · simp only [h2, if_false]
        cases h3 : p.flags.isSyn <;> cases h4 : p.flags.isData <;> cases h5 : p.flags.fin <;>
          cases h6 : env.malloc_buffer <;> cases h7 : env.malloc_drain <;>
          by_cases h8 : p.sequalNum = seq <;>
          rcases drain_loop_ret M env.drain with h9 | h9 <;>
          simp [h8, h9]

/-- C12 (the checksum depends on the length only): `calculate_checksum p` is
`p.length` for every packet; so for two packets that agree on `sequalNum`, flags,
`length` and `checksum` and differ at most in the payload bytes, received in the
same environment, the validity verdict, the return value, the resulting
`seq_number` and the packets transmitted are the same; and a checksum-valid
in-order data packet is accepted with its payload bytes delivered as they are,
corrupted or not. -/
theorem checksum_ignores_payload (MAX_SIZE : Nat) (seq_number : Int) (env : RecvEnv)
    (p q : RUDP_Packet) (hseq : p.sequalNum = q.sequalNum) (hflags : p.flags = q.flags)
    (hlen : p.length = q.length) (hck : p.checksum = q.checksum) :
    calculate_checksum p = p.length ∧ calculate_checksum q = q.length ∧
      (calculate_checksum p = p.checksum ↔ calculate_checksum q = q.checksum) ∧
      (rudp_receive MAX_SIZE seq_number { env with recvfrom := some p }).ret
        = (rudp_receive MAX_SIZE seq_number { env with recvfrom := some q }).ret ∧
      (rudp_receive MAX_SIZE seq_number { env with recvfrom := some p }).seq_number
        = (rudp_receive MAX_SIZE seq_number { env with recvfrom := some q }).seq_number ∧
      (rudp_receive MAX_SIZE seq_number { env with recvfrom := some p }).sent
        = (rudp_receive MAX_SIZE seq_number { env with recvfrom := some q }).sent ∧
      (env.malloc_rudp = true → env.malloc_ack = true → env.sendto_ack = true →
        env.malloc_buffer = true → q.checksum = q.length → q.flags.isSyn = false →
        q.flags.isData = true → q.sequalNum = seq_number →
        (rudp_receive MAX_SIZE seq_number { env with recvfrom := some q }).out
            = some (q.data.take q.length.toNat, q.length) ∧
          ((rudp_receive MAX_SIZE seq_number { env with recvfrom := some q }).ret = 1 ∨
            (rudp_receive MAX_SIZE seq_number { env with recvfrom := some q }).ret = 5)) := by
  have hq : q = { p with data := q.data } := by
    cases p; cases q; simp at hseq hflags hlen hck; simp [hseq, hflags, hlen, hck]
  have key := rudp_receive_payload_indep MAX_SIZE seq_number env p q.data
  rw [← hq] at key
  refine ⟨by simp [calculate_checksum], by simp [calculate_checksum], ?_, ?_, ?_, ?_, ?_⟩
  · simp [calculate_checksum, hlen, hck]
  · rw [key]
  · rw [key]
  · rw [key]
  · intro h1 h3 h4 h5 hc hs hd hsq
    rw [rudp_receive_data MAX_SIZE seq_number { env with recvfrom := some q } q h1 rfl h3 h4 h5
      hc hs hd hsq]
    refine ⟨rfl, ?_⟩
    by_cases hf : q.flags.fin = true <;> simp [hf]

/-- C12, witness: the second packet of a message and a copy of it whose payload
has been altered in transit. -/
theorem checksum_ignores_payload_witness :
    (rudp_receive 2 1 { deliver (memset_zero 2) with
        recvfrom := some (RUDP_Packet.mk 1 ⟨true, false, false, false⟩ 2 2 [3, 4]) }).ret
      = (rudp_receive 2 1 { deliver (memset_zero 2) with
        recvfrom := some (RUDP_Packet.mk 1 ⟨true, false, false, false⟩ 2 2 [9, 9]) }).ret ∧
      (rudp_receive 2 1 { deliver (memset_zero 2) with
        recvfrom := some (RUDP_Packet.mk 1 ⟨true, false, false, false⟩ 2 2 [9, 9]) }).out
      = some ([9, 9], 2) :=
  have h := checksum_ignores_payload 2 1 (deliver (memset_zero 2))
    (RUDP_Packet.mk 1 ⟨true, false, false, false⟩ 2 2 [3, 4])
    (RUDP_Packet.mk 1 ⟨true, false, false, false⟩ 2 2 [9, 9]) rfl rfl rfl rfl
  ⟨h.2.2.2.1, (h.2.2.2.2.2.2 rfl rfl rfl rfl rfl rfl rfl rfl).1⟩

/-- C13 (SYN takes precedence): for every checksum-valid packet with `isSyn`
set, whatever its other flags and its `sequalNum`, received in a call whose
acknowledgment is transmitted, `rudp_receive` returns 0, stores nothing through
`buffer` and `size`, leaves `seq_number` unchanged and does not start the
teardown: it sets no timeout, transmits nothing but the acknowledgment and does
not close the socket. -/
theorem rudp_receive_syn (MAX_SIZE : Nat) (seq_number : Int) (env : RecvEnv)
    (p : RUDP_Packet) (h1 : env.malloc_rudp = true) (h2 : env.recvfrom = some p)
    (h3 : env.malloc_ack = true) (h4 : env.sendto_ack = true)
    (hc : p.checksum = p.length) (hsyn : p.flags.isSyn = true) :
    (rudp_receive MAX_SIZE seq_number env).ret = 0 ∧
      (rudp_receive MAX_SIZE seq_number env).out = none ∧
      (rudp_receive MAX_SIZE seq_number env).seq_number = seq_number ∧
      (rudp_receive MAX_SIZE seq_number env).sent = [ack_packet MAX_SIZE p] ∧
      (rudp_receive MAX_SIZE seq_number env).timeouts = [] ∧
      (rudp_receive MAX_SIZE seq_number env).closed = false := by
  have hck : calculate_checksum p = p.checksum := by simp [calculate_checksum, hc]
  simp only [rudp_receive, h1, h2, h3, h4, send_ack_ok, hck, hsyn]
  simp [send_ack]

/-- C13, witness: a packet with `isSyn`, `isData` and `fin` set and the expected
`sequalNum`, with a FIN waiting to be received next. -/
theorem rudp_receive_syn_witness :
    (rudp_receive 2 0 { deliver (RUDP_Packet.mk 0 ⟨true, true, false, true⟩ 0 0 [1, 2]) with
        drain := [⟨some (close_packet 2), true, true⟩] }).ret = 0 ∧
      (rudp_receive 2 0 { deliver (RUDP_Packet.mk 0 ⟨true, true, false, true⟩ 0 0 [1, 2]) with
        drain := [⟨some (close_packet 2), true, true⟩] }).out = none :=
  have h := rudp_receive_syn 2 0
    { deliver (RUDP_Packet.mk 0 ⟨true, true, false, true⟩ 0 0 [1, 2]) with
      drain := [⟨some (close_packet 2), true, true⟩] }
    (RUDP_Packet.mk 0 ⟨true, true, false, true⟩ 0 0 [1, 2]) rfl rfl rfl rfl rfl rfl
  ⟨h.1, h.2.1⟩

theorem drain_loop_all_sent (M : Nat) : ∀ steps : List DrainStep,
    (∀ s ∈ steps, s.malloc_ack = true ∧ s.sendto_ack = true) →
    drain_loop M steps
      = (none, ((steps.filterMap (fun s => s.recvfrom)).filter
          (fun q => q.flags.fin)).map (ack_packet M)) := by
  intro steps
  induction steps with
  | nil => intro _; rfl
  | cons s steps ih =>
    intro h
    have hs := h s (by simp)
    have ih1 := ih (fun x hx => h x (List.mem_cons_of_mem _ hx))
    simp only [drain_loop, hs.1, hs.2, send_ack_ok, ih1]
    cases hr : s.recvfrom with
    | none => simp [memset_zero, List.filterMap_cons, hr]
    | some q =>
      cases hf : q.flags.fin with
      | false => simp [hf, List.filterMap_cons, hr]
      | true => simp [hf, send_ack, List.filterMap_cons, hr]

/-- C14 (passive close): for every checksum-valid packet with `fin` set and
`isData` and `isSyn` clear, for every `sequalNum` and every `seq_number`, when the
allocations and every transmit succeed, `rudp_receive` acknowledges the packet,
runs the drain loop in which it acknowledges each further packet with `fin` set
that it receives, closes the socket and returns -5, a value distinct from 5,
having stored nothing through `buffer` and `size` and left `seq_number`
unchanged; and a checksum-valid packet with none of `isSyn`, `isData`, `fin` set
returns 0. -/
theorem rudp_receive_fin (MAX_SIZE : Nat) (seq_number : Int) (env : RecvEnv)
    (p : RUDP_Packet) (h1 : env.malloc_rudp = true) (h2 : env.recvfrom = some p)
    (h3 : env.malloc_ack = true) (h4 : env.sendto_ack = true)
    (hc : p.checksum = p.length) (hsyn : p.flags.isSyn = false)
    (hdata : p.flags.isData = false) :
    (p.flags.fin = true → env.malloc_drain = true →
      (∀ s ∈ env.drain, s.malloc_ack = true ∧ s.sendto_ack = true) →
      (rudp_receive MAX_SIZE seq_number env).ret = -5 ∧
        (rudp_receive MAX_SIZE seq_number env).ret ≠ 5 ∧
        (rudp_receive MAX_SIZE seq_number env).out = none ∧
        (rudp_receive MAX_SIZE seq_number env).seq_number = seq_number ∧
        (rudp_receive MAX_SIZE seq_number env).closed = true ∧
        (rudp_receive MAX_SIZE seq_number env).sent
          = ack_packet MAX_SIZE p ::
            ((env.drain.filterMap (fun s => s.recvfrom)).filter
              (fun q => q.flags.fin)).map (ack_packet MAX_SIZE)) ∧
      (p.flags.fin = false →
        (rudp_receive MAX_SIZE seq_number env).ret = 0 ∧
        (rudp_receive MAX_SIZE seq_number env).out = none ∧
        (rudp_receive MAX_SIZE seq_number env).seq_number = seq_number ∧
        (rudp_receive MAX_SIZE seq_number env).closed = false) := by
  have hck : calculate_checksum p = p.checksum := by simp [calculate_checksum, hc]
  have hs : send_ack MAX_SIZE true true p = (1, [ack_packet MAX_SIZE p]) := by
    simp [send_ack]
  refine ⟨?_, ?_⟩
  · intro hfin hmd hdrain
    have hd := drain_loop_all_sent MAX_SIZE env.drain hdrain
    simp only [rudp_receive, h1, h2, h3, h4, hs, hck, hsyn, hdata, hfin, hmd, hd]
    by_cases hseq : p.sequalNum = seq_number <;> simp [hseq]
  · intro hfin
    simp only [rudp_receive, h1, h2, h3, h4, hs, hck, hsyn, hdata, hfin]
    by_cases hseq : p.sequalNum = seq_number <;> simp [hseq]

/-- C14, witness: the close packet is received when `seq_number = 3`; the drain
loop then receives a retransmission of it, nothing, and a data packet. -/
theorem rudp_receive_fin_witness :
    (rudp_receive 2 3 { deliver (close_packet 2) with
        drain := [⟨some (close_packet 2), true, true⟩, ⟨none, true, true⟩,
          ⟨some (full_chunk 2 [1, 2] 1 0 0), true, true⟩] }).ret = -5 ∧
      (rudp_receive 2 3 { deliver (close_packet 2) with
        drain := [⟨some (close_packet 2), true, true⟩, ⟨none, true, true⟩,
          ⟨some (full_chunk 2 [1, 2] 1 0 0), true, true⟩] }).seq_number = 3 :=
  have h := (rudp_receive_fin 2 3 { deliver (close_packet 2) with
      drain := [⟨some (close_packet 2), true, true⟩, ⟨none, true, true⟩,
        ⟨some (full_chunk 2 [1, 2] 1 0 0), true, true⟩] }
    (close_packet 2) rfl rfl rfl rfl (by decide) (by decide) (by decide)).1
    (by decide) rfl (by decide)
  ⟨h.1, h.2.2.2.1⟩

/-- C18 (a retransmitted single-packet message is delivered twice): for every
checksum-valid packet with `isData` and `fin` set and `isSyn` clear, received twice
in a row in calls whose acknowledgments and allocations succeed: if its
`sequalNum` is 0 and `seq_number` starts at 0, both calls return 5 and store the
same payload and size, `seq_number` being 0 again after the first; if its
`sequalNum` is `k > 0` and it is the packet expected, the first call returns 5
and resets `seq_number` to 0, and the second call returns 0 and stores nothing. -/
theorem rudp_receive_twice (MAX_SIZE : Nat) (env1 env2 : RecvEnv) (p : RUDP_Packet)
    (h1 : env1.malloc_rudp = true) (h2 : env1.recvfrom = some p)
    (h3 : env1.malloc_ack = true) (h4 : env1.sendto_ack = true)
    (h5 : env1.malloc_buffer = true)
    (g1 : env2.malloc_rudp = true) (g2 : env2.recvfrom = some p)
    (g3 : env2.malloc_ack = true) (g4 : env2.sendto_ack = true)
    (g5 : env2.malloc_buffer = true)
    (hc : p.checksum = p.length) (hsyn : p.flags.isSyn = false)
    (hdata : p.flags.isData = true) (hfin : p.flags.fin = true) :
    (p.sequalNum = 0 →
      (rudp_receive MAX_SIZE 0 env1).ret = 5 ∧
        (rudp_receive MAX_SIZE 0 env1).seq_number = 0 ∧
        (rudp_receive MAX_SIZE (rudp_receive MAX_SIZE 0 env1).seq_number env2).ret = 5 ∧
        (rudp_receive MAX_SIZE 0 env1).out = some (p.data.take p.length.toNat, p.length) ∧
        (rudp_receive MAX_SIZE (rudp_receive MAX_SIZE 0 env1).seq_number env2).out
          = (rudp_receive MAX_SIZE 0 env1).out) ∧
      (0 < p.sequalNum →
        (rudp_receive MAX_SIZE p.sequalNum env1).ret = 5 ∧
        (rudp_receive MAX_SIZE p.sequalNum env1).seq_number = 0 ∧
        (rudp_receive MAX_SIZE (rudp_receive MAX_SIZE p.sequalNum env1).seq_number env2).ret
          = 0 ∧
        (rudp_receive MAX_SIZE (rudp_receive MAX_SIZE p.sequalNum env1).seq_number env2).out
          = none) := by
  refine ⟨?_, ?_⟩
  · intro h0
    have r1 := rudp_receive_data MAX_SIZE 0 env1 p h1 h2 h3 h4 h5 hc hsyn hdata h0
    have r2 := rudp_receive_data MAX_SIZE 0 env2 p g1 g2 g3 g4 g5 hc hsyn hdata h0
    simp only [hfin, if_true] at r1 r2
    rw [r1]
    simp only
    rw [r2]
    simp
  · intro hk
    have r1 := rudp_receive_data MAX_SIZE p.sequalNum env1 p h1 h2 h3 h4 h5 hc hsyn hdata rfl
    simp only [hfin, if_true] at r1
    rw [r1]
    simp only
    have hne : p.sequalNum ≠ 0 := by omega
    have hck : calculate_checksum p = p.checksum := by simp [calculate_checksum, hc]
    refine ⟨trivial, trivial, ?_, ?_⟩ <;>
      simp [rudp_receive, g1, g2, g3, g4, send_ack_ok, hck, hsyn, hdata, hne]

/-- C18, witness: a one-packet message of two bytes received twice. -/
theorem rudp_receive_twice_witness :
    (rudp_receive 2 0 (deliver (full_chunk 2 [1, 2] 1 0 0))).ret = 5 ∧
      (rudp_receive 2 (rudp_receive 2 0 (deliver (full_chunk 2 [1, 2] 1 0 0))).seq_number
        (deliver (full_chunk 2 [1, 2] 1 0 0))).ret = 5 :=
  have h := (rudp_receive_twice 2 (deliver (full_chunk 2 [1, 2] 1 0 0))
    (deliver (full_chunk 2 [1, 2] 1 0 0)) (full_chunk 2 [1, 2] 1 0 0)
    rfl rfl rfl rfl rfl rfl rfl rfl rfl rfl (by decide) (by decide) (by decide)
    (by decide)).1 (by decide)
  ⟨h.1, h.2.2.1⟩

theorem rudp_receive_cases (M : Nat) (seq : Int) (env : RecvEnv) :
    ((rudp_receive M seq env).ret = 1 ∧ (rudp_receive M seq env).seq_number = seq + 1) ∨
      ((rudp_receive M seq env).ret = 5 ∧ (rudp_receive M seq env).seq_number = 0) ∨
      (((rudp_receive M seq env).ret = -1 ∨ (rudp_receive M seq env).ret = 0 ∨
          (rudp_receive M seq env).ret = -5) ∧
        (rudp_receive M seq env).seq_number = seq) := by
  simp only [rudp_receive]
  cases env.malloc_rudp with
  | false => simp
  | true =>
    simp only [Bool.true_eq_false, if_false]
    cases hr : env.recvfrom with
    | none => simp
    | some p =>
      simp only
      by_cases h1 : (send_ack M env.malloc_ack env.sendto_ack p).1 = -1
      · simp [h1]
      · simp only [h1, if_false]
        by_cases h2 : calculate_checksum p ≠ p.checksum
        · simp [h2]
        · simp only [h2, if_false]
          cases h3 : p.flags.isSyn <;> cases h4 : p.flags.isData <;> cases h5 : p.flags.fin <;>
            cases h6 : env.malloc_buffer <;> cases h7 : env.malloc_drain <;>
            by_cases h8 : p.sequalNum = seq <;>
            rcases drain_loop_ret M env.drain with h9 | h9 <;>
            simp [h8, h9]

theorem seq_after_bounds (M : Nat) (s0 : Int) (c : Call) (h : 0 ≤ s0) :
    0 ≤ seq_after M s0 c ∧ seq_after M s0 c ≤ s0 + 1 := by
  cases c with
  | receive env =>
    simp only [seq_after]
    rcases rudp_receive_cases M s0 env with h1 | h1 | h1
    · rw [h1.2]; omega
    · rw [h1.2]; omega
    · rw [h1.2]; omega
  | send _ _ _ => simp only [seq_after]; omega
  | connect _ => simp only [seq_after]; omega
  | accept _ => simp only [seq_after]; omega
  | close _ _ => simp only [seq_after]; omega

theorem run_calls_bounds (M : Nat) : ∀ (calls : List Call) (s0 : Int), 0 ≤ s0 →
    ∀ s ∈ run_calls M s0 calls, 0 ≤ s ∧ s ≤ s0 + calls.length := by
  intro calls
  induction calls with
  | nil => intro s0 _ s hs; simp [run_calls] at hs
  | cons c cs ih =>
    intro s0 h0 s hs
    have hb := seq_after_bounds M s0 c h0
    simp only [run_calls, List.mem_cons] at hs
    simp only [List.length_cons, Nat.cast_add, Nat.cast_one]
    rcases hs with hs | hs
    · rw [hs]; exact ⟨hb.1, by omega⟩
    · have := ih (seq_after M s0 c) hb.1 s hs
      exact ⟨this.1, by omega⟩

/-- C15 (the `seq_number` invariant): starting from 0, after every call of every
sequence of API calls `seq_number` is at least 0 (and at most the number of calls
made); a `rudp_receive` call changes it only by adding 1, which it does exactly
when it returns 1, or by resetting it to 0, which it does when it returns 5;
every call that returns 0, -5 or -1 leaves it unchanged; and `rudp_send`,
`rudp_connect`, `rudp_accept` and `rudp_close` do not modify it. -/
theorem seq_number_invariant (MAX_SIZE : Nat) (calls : List Call) :
    (∀ s ∈ run_calls MAX_SIZE 0 calls, 0 ≤ s ∧ s ≤ calls.length) ∧
      (∀ (seq_number : Int) (env : RecvEnv),
        ((rudp_receive MAX_SIZE seq_number env).ret = 1 →
          (rudp_receive MAX_SIZE seq_number env).seq_number = seq_number + 1) ∧
        ((rudp_receive MAX_SIZE seq_number env).ret = 5 →
          (rudp_receive MAX_SIZE seq_number env).seq_number = 0) ∧
        ((rudp_receive MAX_SIZE seq_number env).ret ≠ 1 →
          (rudp_receive MAX_SIZE seq_number env).ret ≠ 5 →
          ((rudp_receive MAX_SIZE seq_number env).ret = 0 ∨
            (rudp_receive MAX_SIZE seq_number env).ret = -5 ∨
            (rudp_receive MAX_SIZE seq_number env).ret = -1) ∧
          (rudp_receive MAX_SIZE seq_number env).seq_number = seq_number) ∧
        (0 ≤ seq_number →
          ((rudp_receive MAX_SIZE seq_number env).seq_number = seq_number + 1 ↔
            (rudp_receive MAX_SIZE seq_number env).ret = 1))) ∧
      (∀ (seq_number : Int) (c : Call), (∀ env, c ≠ Call.receive env) →
        seq_after MAX_SIZE seq_number c = seq_number) := by
  refine ⟨?_, ?_, ?_⟩
  · intro s hs
    have := run_calls_bounds MAX_SIZE calls 0 (le_refl 0) s hs
    exact ⟨this.1, by simpa using this.2⟩
  · intro seq env
    rcases rudp_receive_cases MAX_SIZE seq env with h | h | h
    · rw [h.1, h.2]; simp
    · rw [h.1, h.2]
      refine ⟨by simp, by simp, by simp, ?_⟩
      intro h0
      constructor
      · intro e; omega
      · intro e; omega
    · rw [h.2]
      rcases h.1 with e | e | e <;> rw [e] <;> simp
  · intro seq c hc
    cases c with
    | receive env => exact absurd rfl (hc env)
    | send _ _ _ => rfl
    | connect _ => rfl
    | accept _ => rfl
    | close _ _ => rfl

/-- C15, witness: a message of two packets is received between a send and a
close; `seq_number` goes 0, 1, 0, 0, and the value 1 it takes lies between 0 and
the number of calls. -/
theorem seq_number_invariant_witness :
    run_calls 2 0
        [Call.send true [1, 2] [], Call.receive (deliver (full_chunk 2 [1, 2, 3] 1 1 0)),
          Call.receive (deliver (last_chunk 2 [1, 2, 3] 1 1)), Call.close true []]
      = [0, 1, 0, 0] ∧
    ((0 : Int) ≤ 1 ∧ (1 : Int) ≤ ([Call.send true [1, 2] [],
        Call.receive (deliver (full_chunk 2 [1, 2, 3] 1 1 0)),
        Call.receive (deliver (last_chunk 2 [1, 2, 3] 1 1)), Call.close true []].length : Nat)) :=
  ⟨by decide, (seq_number_invariant 2
    [Call.send true [1, 2] [], Call.receive (deliver (full_chunk 2 [1, 2, 3] 1 1 0)),
      Call.receive (deliver (last_chunk 2 [1, 2, 3] 1 1)), Call.close true []]).1 1
    (by decide)⟩

theorem send_chunks_tx_mem (M : Nat) (data : List Byte) (n l : Nat) :
    ∀ (todo i : Nat) (env : List Round),
    ∀ q ∈ transmitted (send_chunks M data n l todo i env).1,
      ∃ j, i ≤ j ∧ j < i + todo ∧ q = full_chunk M data n l j := by
  intro todo
  induction todo with
  | zero => intro i env q hq; simp [send_chunks, transmitted] at hq
  | succ todo ih =>
    intro i env q hq
    simp only [send_chunks] at hq
    obtain ⟨k, hk⟩ := send_until_ack_tx_any (full_chunk M data n l i) (i : Int) env
    generalize send_until_ack (full_chunk M data n l i) (i : Int) env = r at hq hk
    obtain ⟨ev, out, env1⟩ := r
    simp only at hk
    cases out with
    | done =>
      simp only [transmitted_append, List.mem_append, hk] at hq
      rcases hq with hq | hq
      · exact ⟨i, le_refl i, by omega, List.eq_of_mem_replicate hq⟩
      · obtain ⟨j, h1, h2, h3⟩ := ih (i + 1) env1 q hq
        exact ⟨j, by omega, by omega, h3⟩
    | failed =>
      simp only [hk] at hq
      exact ⟨i, le_refl i, by omega, List.eq_of_mem_replicate hq⟩
    | running =>
      simp only [hk] at hq
      exact ⟨i, le_refl i, by omega, List.eq_of_mem_replicate hq⟩

theorem rudp_send_tx_mem (M : Nat) (malloc_ok : Bool) (data : List Byte) (env : List Round) :
    ∀ q ∈ transmitted (rudp_send M malloc_ok data env).events, q ∈ chunks M data := by
  intro q hq
  cases malloc_ok with
  | false => simp [rudp_send, transmitted] at hq
  | true =>
    simp only [rudp_send, Bool.true_eq_false, if_false] at hq
    simp only [chunks, List.mem_append, List.mem_map, List.mem_range]
    have hB := send_chunks_tx_mem M data (data.length / M) (data.length % M) (data.length / M) 0
      env
    generalize send_chunks M data (data.length / M) (data.length % M) (data.length / M) 0 env
      = r at hq hB
    obtain ⟨ev, out, env1⟩ := r
    simp only at hB
    have hev : ∀ x ∈ transmitted ev, ∃ a, a < data.length / M ∧
        full_chunk M data (data.length / M) (data.length % M) a = x := by
      intro x hx
      obtain ⟨j, _, h2, h3⟩ := hB x hx
      exact ⟨j, by omega, h3.symm⟩
    cases out with
    | done =>
      simp only at hq
      by_cases hl : data.length % M > 0
      · simp only [hl, if_true, transmitted_append, List.mem_append] at hq
        rcases hq with hq | hq
        · exact Or.inl (hev q hq)
        · obtain ⟨k, hk⟩ := send_until_ack_tx_any
            (last_chunk M data (data.length / M) (data.length % M))
            ((data.length / M : Nat) : Int) env1
          rw [hk] at hq
          right
          simp [hl, List.eq_of_mem_replicate hq]
      · simp only [hl, if_false] at hq
        exact Or.inl (hev q hq)
    | failed => exact Or.inl (hev q hq)
    | running => exact Or.inl (hev q hq)

theorem chunks_length_bounds (M : Nat) (hM : 0 < M) (data : List Byte) :
    ∀ p ∈ chunks M data, well_formed M p := by
  intro p hp
  have hwf := chunks_wellformed M hM data p hp
  refine ⟨hwf.1, ?_⟩
  simp only [chunks, List.mem_append, List.mem_map, List.mem_range] at hp
  rcases hp with ⟨i, _, rfl⟩ | hp
  · rw [full_chunk_length]; omega
  · split at hp
    · rw [List.mem_singleton] at hp
      have hlt : data.length % M < M := Nat.mod_lt _ hM
      rw [hp]
      simp only [last_chunk]
      omega
    · simp at hp

theorem ack_packet_well_formed (M : Nat) (p : RUDP_Packet) : well_formed M (ack_packet M p) := by
  simp [well_formed, ack_packet, memset_zero, calculate_checksum]

theorem drain_loop_sent (M : Nat) : ∀ steps : List DrainStep,
    ∀ a ∈ (drain_loop M steps).2, ∃ q, a = ack_packet M q := by
  intro steps
  induction steps with
  | nil => intro a ha; simp [drain_loop] at ha
  | cons s steps ih =>
    intro a ha
    simp only [drain_loop] at ha
    split at ha
    · split at ha
      · simp at ha
      · simp only [List.mem_append] at ha
        rcases ha with ha | ha
        · simp only [send_ack] at ha
          split at ha
          · simp at ha
          · split at ha
            · simp at ha
            · simp only [List.mem_singleton] at ha
              exact ⟨_, ha⟩
        · exact ih a ha
    · exact ih a ha

theorem send_ack_sent (M : Nat) (m s : Bool) (p : RUDP_Packet) :
    ∀ a ∈ (send_ack M m s p).2, a = ack_packet M p := by
  intro a ha
  cases m <;> cases s <;> simp [send_ack] at ha
  exact ha

theorem rudp_receive_sent_shape (M : Nat) (seq : Int) (env : RecvEnv) (p : RUDP_Packet)
    (hr : env.recvfrom = some p) :
    (rudp_receive M seq env).sent = [] ∨
      (rudp_receive M seq env).sent = (send_ack M env.malloc_ack env.sendto_ack p).2 ∨
      (rudp_receive M seq env).sent
        = (send_ack M env.malloc_ack env.sendto_ack p).2 ++ (drain_loop M env.drain).2 := by
  simp only [rudp_receive, hr]
  generalize send_ack M env.malloc_ack env.sendto_ack p = sa
  generalize drain_loop M env.drain = dl
  cases env.malloc_rudp with
  | false => simp
  | true =>
    simp only [Bool.true_eq_false, if_false]
    by_cases h1 : sa.1 = -1
    · simp [h1]
    · simp only [h1, if_false]
      by_cases h2 : calculate_checksum p ≠ p.checksum
      · simp [h2]
      · simp only [h2, if_false]
        cases h3 : p.flags.isSyn <;> cases h4 : p.flags.isData <;> cases h5 : p.flags.fin <;>
          cases h6 : env.malloc_buffer <;> cases h7 : env.malloc_drain <;>
          by_cases h8 : p.sequalNum = seq <;>
          cases h9 : dl.1 <;>
          simp [h8]

theorem rudp_receive_sent_acks (M : Nat) (seq : Int) (env : RecvEnv) :
    ∀ a ∈ (rudp_receive M seq env).sent, ∃ q, a = ack_packet M q := by
  intro a ha
  cases hr : env.recvfrom with
  | none =>
    have : (rudp_receive M seq env).sent = [] := by
      simp only [rudp_receive, hr]
      split <;> rfl
    rw [this] at ha
    simp at ha
  | some p =>
    rcases rudp_receive_sent_shape M seq env p hr with h | h | h
    · rw [h] at ha; simp at ha
    · rw [h] at ha
      exact ⟨p, send_ack_sent M _ _ p a ha⟩
    · rw [h, List.mem_append] at ha
      rcases ha with ha | ha
      · exact ⟨p, send_ack_sent M _ _ p a ha⟩
      · exact drain_loop_sent M env.drain a ha

/-- C16 (well-formed packets): for `MAX_SIZE > 0`, every packet this code
transmits satisfies `checksum == length` and `0 <= length <= MAX_SIZE`: the data
packets of `rudp_send` for every buffer, the acknowledgments of `send_ack` (those
`rudp_receive` transmits included), the close packet of `rudp_close`, the SYN of
`rudp_connect` and the reply of `rudp_accept`; and every packet with
`checksum == length` passes the test `calculate_checksum(rudp) == rudp->checksum`
of the receiver. -/
theorem packets_well_formed (MAX_SIZE : Nat) (hM : 0 < MAX_SIZE) :
    (∀ (malloc_ok : Bool) (data : List Byte) (env : List Round),
        ∀ p ∈ transmitted (rudp_send MAX_SIZE malloc_ok data env).events,
          well_formed MAX_SIZE p) ∧
      (∀ (malloc_ok sendto_ok : Bool) (rudp : RUDP_Packet),
        ∀ p ∈ (send_ack MAX_SIZE malloc_ok sendto_ok rudp).2, well_formed MAX_SIZE p) ∧
      (∀ (seq_number : Int) (env : RecvEnv),
        ∀ p ∈ (rudp_receive MAX_SIZE seq_number env).sent, well_formed MAX_SIZE p) ∧
      (∀ (malloc_ok : Bool) (env : List Round),
        ∀ p ∈ transmitted (rudp_close MAX_SIZE malloc_ok env).events,
          well_formed MAX_SIZE p) ∧
      (∀ env : ConnectEnv, ∀ p ∈ (rudp_connect MAX_SIZE env).sent, well_formed MAX_SIZE p) ∧
      (∀ env : AcceptEnv, ∀ p ∈ (rudp_accept MAX_SIZE env).sent, well_formed MAX_SIZE p) ∧
      (∀ p : RUDP_Packet, well_formed MAX_SIZE p → calculate_checksum p = p.checksum) := by
  refine ⟨?_, ?_, ?_, ?_, ?_, ?_, ?_⟩
  · intro m data env p hp
    exact chunks_length_bounds MAX_SIZE hM data p (rudp_send_tx_mem MAX_SIZE m data env p hp)
  · intro m s rudp p hp
    rw [send_ack_sent MAX_SIZE m s rudp p hp]
    exact ack_packet_well_formed MAX_SIZE rudp
  · intro seq env p hp
    obtain ⟨q, rfl⟩ := rudp_receive_sent_acks MAX_SIZE seq env p hp
    exact ack_packet_well_formed MAX_SIZE q
  · intro m env p hp
    cases m with
    | false => simp [rudp_close, transmitted] at hp
    | true =>
      simp only [rudp_close, Bool.true_eq_false, if_false] at hp
      obtain ⟨k, hk⟩ := send_until_ack_tx_any (close_packet MAX_SIZE) (-1) env
      rw [hk] at hp
      rw [List.eq_of_mem_replicate hp]
      simp [well_formed, close_packet, memset_zero, calculate_checksum]
  · intro env p hp
    have hsyn : p = syn_packet MAX_SIZE := by
      simp only [rudp_connect] at hp
      repeat' split at hp
      all_goals first
        | exact (connect_attempts_sent MAX_SIZE env.attempt 3 0).2 p hp
        | simp at hp
    rw [hsyn]
    simp [well_formed, syn_packet, memset_zero]
  · intro env p hp
    have hsa : p = syn_ack_packet MAX_SIZE := by
      simp only [rudp_accept] at hp
      repeat' split at hp
      all_goals simp at hp
      all_goals exact hp
    rw [hsa]
    simp [well_formed, syn_ack_packet, memset_zero]
  · intro p hp
    simp [calculate_checksum, hp.1]

/-- C16, witness: `MAX_SIZE = 2`; the last packet sent for a three-byte buffer. -/
theorem packets_well_formed_witness :
    0 < 2 ∧ well_formed 2 (last_chunk 2 [1, 2, 3] 1 1) :=
  ⟨by decide, (packets_well_formed 2 (by decide)).1 true [1, 2, 3]
    [ack_round 2 (memset_zero 2), ⟨true, [none]⟩] (last_chunk 2 [1, 2, 3] 1 1) (by decide)⟩

theorem sw_run_append (e1 : List Event) : ∀ (st : Nat × Option RUDP_Packet) (e2 : List Event),
    sw_run st (e1 ++ e2) = (sw_run st e1).bind (fun st1 => sw_run st1 e2) := by
  induction e1 with
  | nil => intro st e2; rfl
  | cons e es ih =>
    intro st e2
    simp only [List.cons_append, sw_run]
    cases sw_step st e with
    | none => rfl
    | some st1 => exact ih st1 e2

theorem sw_run_retransmit (n : Nat) (p : RUDP_Packet) : ∀ k : Nat,
    sw_run (n, some p) (List.replicate k (Event.tx p)) = some (n, some p) := by
  intro k
  induction k with
  | zero => rfl
  | succ k ih => simp [List.replicate_succ, sw_run, sw_step, ih]

theorem sw_run_block (n : Nat) (p : RUDP_Packet) (hp : p.sequalNum = (n : Int))
    (env : List Round) :
    ((send_until_ack p (n : Int) env).2.1 = Outcome.done →
        sw_run (n, none) (send_until_ack p (n : Int) env).1 = some (n + 1, none)) ∧
      ((send_until_ack p (n : Int) env).2.1 ≠ Outcome.done →
        ∃ o, sw_run (n, none) (send_until_ack p (n : Int) env).1 = some (n, o)) := by
  have hA := send_until_ack_events p (n : Int) env
  refine ⟨fun h => ?_, fun h => ?_⟩
  · obtain ⟨k, a, hk, ha1, ha2⟩ := hA.1 h
    rw [hk]
    cases k with
    | zero => simp [sw_run, sw_step, hp, ha1, ha2]
    | succ k =>
      rw [List.replicate_succ, List.cons_append]
      simp only [sw_run, sw_step, hp, if_true]
      rw [sw_run_append, sw_run_retransmit]
      simp [sw_run, sw_step, ha1, ha2]
  · obtain ⟨k, hk⟩ := hA.2 h
    rw [hk]
    cases k with
    | zero => exact ⟨none, rfl⟩
    | succ k =>
      refine ⟨some p, ?_⟩
      rw [List.replicate_succ]
      simp only [sw_run, sw_step, hp, if_true]
      exact sw_run_retransmit n p k

theorem sw_run_send_chunks (M : Nat) (data : List Byte) (n l : Nat) :
    ∀ (todo i : Nat) (env : List Round),
    ∃ st, sw_run (i, none) (send_chunks M data n l todo i env).1 = some st ∧
      ((send_chunks M data n l todo i env).2.1 = Outcome.done → st = (i + todo, none)) := by
  intro todo
  induction todo with
  | zero => intro i env; exact ⟨(i, none), rfl, fun _ => rfl⟩
  | succ todo ih =>
    intro i env
    have hB := sw_run_block i (full_chunk M data n l i) (full_chunk_seq M data n l i) env
    simp only [send_chunks]
    generalize send_until_ack (full_chunk M data n l i) (i : Int) env = r at hB ⊢
    obtain ⟨ev, out, env1⟩ := r
    cases out with
    | done =>
      obtain ⟨st, hst, hdone⟩ := ih (i + 1) env1
      have h1 := hB.1 rfl
      simp only at h1 ⊢
      refine ⟨st, ?_, ?_⟩
      · rw [sw_run_append, h1]; exact hst
      · intro hd
        rw [hdone hd]
        congr 1
        omega
    | failed =>
      obtain ⟨o, ho⟩ := hB.2 (by simp)
      exact ⟨(i, o), ho, fun h => by simp at h⟩
    | running =>
      obtain ⟨o, ho⟩ := hB.2 (by simp)
      exact ⟨(i, o), ho, fun h => by simp at h⟩

theorem sw_run_rudp_send (M : Nat) (malloc_ok : Bool) (data : List Byte) (env : List Round) :
    ∃ st, sw_run (0, none) (rudp_send M malloc_ok data env).events = some st := by
  cases malloc_ok with
  | false => exact ⟨(0, none), by simp [rudp_send, sw_run]⟩
  | true =>
    simp only [rudp_send, Bool.true_eq_false, if_false]
    obtain ⟨st, hst, hdone⟩ := sw_run_send_chunks M data (data.length / M) (data.length % M)
      (data.length / M) 0 env
    generalize send_chunks M data (data.length / M) (data.length % M) (data.length / M) 0 env
      = r at hst hdone ⊢
    obtain ⟨ev, out, env1⟩ := r
    cases out with
    | done =>
      simp only at hst hdone ⊢
      by_cases hl : data.length % M > 0
      · simp only [hl, if_true]
        have hst2 := hdone trivial
        rw [Nat.zero_add] at hst2
        have hB := sw_run_block (data.length / M)
          (last_chunk M data (data.length / M) (data.length % M)) (by simp [last_chunk]) env1
        rw [sw_run_append, hst, hst2]
        simp only [Option.bind]
        by_cases hd : (send_until_ack (last_chunk M data (data.length / M) (data.length % M))
            ((data.length / M : Nat) : Int) env1).2.1 = Outcome.done
        · exact ⟨_, hB.1 hd⟩
        · obtain ⟨o, ho⟩ := hB.2 hd
          exact ⟨_, ho⟩
      · simp only [hl, if_false]
        exact ⟨st, hst⟩
    | failed => exact ⟨st, hst⟩
    | running => exact ⟨st, hst⟩

theorem sw_step_inv (n : Nat) (o : Option RUDP_Packet) (e : Event)
    (st : Nat × Option RUDP_Packet) (hinv : ∀ p, o = some p → p.sequalNum = (n : Int))
    (h : sw_step (n, o) e = some st) :
    (∀ p, st.2 = some p → p.sequalNum = (st.1 : Int)) ∧
      (∀ q, e = Event.tx q → q.sequalNum = (n : Int) ∧ st.1 = n) ∧
      (∀ a, e = Event.acked a → a.flags.ack = true ∧ a.sequalNum = (n : Int) ∧ st.1 = n + 1) := by
  cases o with
  | none =>
    cases e with
    | tx q =>
      simp only [sw_step] at h
      split at h
      · rename_i hq
        simp only [Option.some.injEq] at h
        subst h
        exact ⟨fun p hp => by simp at hp; rw [← hp]; exact hq,
          fun q' hq' => by simp at hq'; rw [← hq']; exact ⟨hq, rfl⟩,
          fun a ha => by simp at ha⟩
      · simp at h
    | acked a => simp [sw_step] at h
  | some p =>
    have hp := hinv p rfl
    cases e with
    | tx q =>
      simp only [sw_step] at h
      split at h
      · rename_i hq
        simp only [Option.some.injEq] at h
        subst h
        exact ⟨fun p' hp' => by simp at hp'; rw [← hp']; exact hp,
          fun q' hq' => by simp at hq'; rw [← hq', hq]; exact ⟨hp, rfl⟩,
          fun a ha => by simp at ha⟩
      · simp at h
    | acked a =>
      simp only [sw_step] at h
      split at h
      · rename_i ha
        simp only [Option.some.injEq] at h
        subst h
        exact ⟨fun p' hp' => by simp at hp',
          fun q' hq' => by simp at hq',
          fun a' ha' => by simp at ha'; rw [← ha']; exact ⟨ha.1, ha.2, rfl⟩⟩
      · simp at h

theorem sw_sorted : ∀ (ev : List Event) (n : Nat) (o : Option RUDP_Packet)
    (st : Nat × Option RUDP_Packet), (∀ p, o = some p → p.sequalNum = (n : Int)) →
    sw_run (n, o) ev = some st →
    (∀ q ∈ transmitted ev, (n : Int) ≤ q.sequalNum) ∧
      ((transmitted ev).map (fun q => q.sequalNum)).Pairwise (fun a b => a ≤ b) := by
  intro ev
  induction ev with
  | nil => intro n o st _ _; simp [transmitted]
  | cons e ev ih =>
    intro n o st hinv h
    simp only [sw_run] at h
    cases hs : sw_step (n, o) e with
    | none => rw [hs] at h; simp at h
    | some st1 =>
      rw [hs] at h
      obtain ⟨n1, o1⟩ := st1
      have hstep := sw_step_inv n o e (n1, o1) hinv hs
      have hih := ih n1 o1 st hstep.1 h
      cases e with
      | tx q =>
        have hq := hstep.2.1 q rfl
        simp only at hq
        simp only [transmitted, List.mem_cons, List.map_cons, List.pairwise_cons]
        refine ⟨?_, ?_, hih.2⟩
        · rintro x (rfl | hx)
          · omega
          · have := hih.1 x hx
            omega
        · intro b hb
          simp only [List.mem_map] at hb
          obtain ⟨x, hx, rfl⟩ := hb
          have := hih.1 x hx
          omega
      | acked a =>
        have ha := hstep.2.2 a rfl
        simp only at ha
        simp only [transmitted]
        refine ⟨?_, hih.2⟩
        intro x hx
        have := hih.1 x hx
        omega

theorem sw_acked_before : ∀ (ev : List Event) (n : Nat) (o : Option RUDP_Packet)
    (st : Nat × Option RUDP_Packet), (∀ p, o = some p → p.sequalNum = (n : Int)) →
    sw_run (n, o) ev = some st →
    ∀ (pre : List Event) (q : RUDP_Packet) (post : List Event) (i : Nat),
      ev = pre ++ Event.tx q :: post → q.sequalNum = (i : Int) + 1 → n ≤ i →
      ∃ a, Event.acked a ∈ pre ∧ a.flags.ack = true ∧ a.sequalNum = (i : Int) := by
  intro ev
  induction ev with
  | nil => intro n o st _ _ pre q post i h; simp at h
  | cons e ev ih =>
    intro n o st hinv h pre q post i hev hq hi
    simp only [sw_run] at h
    cases hs : sw_step (n, o) e with
    | none => rw [hs] at h; simp at h
    | some st1 =>
      rw [hs] at h
      obtain ⟨n1, o1⟩ := st1
      have hstep := sw_step_inv n o e (n1, o1) hinv hs
      cases pre with
      | nil =>
        simp only [List.nil_append, List.cons.injEq] at hev
        have := (hstep.2.1 q hev.1).1
        omega
      | cons e1 pre1 =>
        simp only [List.cons_append, List.cons.injEq] at hev
        obtain ⟨rfl, hev1⟩ := hev
        cases e with
        | tx x =>
          have hx := (hstep.2.1 x rfl).2
          simp only at hx
          obtain ⟨a, ha, hrest⟩ := ih n1 o1 st hstep.1 h pre1 q post i hev1 hq (by omega)
          exact ⟨a, List.mem_cons_of_mem _ ha, hrest⟩
        | acked a =>
          have ha := hstep.2.2 a rfl
          simp only at ha
          by_cases hin : i = n
          · exact ⟨a, by simp, ha.1, by rw [ha.2.1, hin]⟩
          · obtain ⟨b, hb, hrest⟩ := ih n1 o1 st hstep.1 h pre1 q post i hev1 hq (by omega)
            exact ⟨b, List.mem_cons_of_mem _ hb, hrest⟩

theorem chunks_seq_inj (M : Nat) (data : List Byte) :
    ∀ p ∈ chunks M data, ∀ q ∈ chunks M data, p.sequalNum = q.sequalNum → p = q := by
  have h : ((chunks M data).map (fun p => p.sequalNum)).Nodup := by
    rw [chunks_seq]
    exact List.Nodup.map (fun a b h => by exact_mod_cast h) (List.nodup_range _)
  intro p hp q hq hpq
  exact List.inj_on_of_nodup_map h hp hq hpq

/-- C17 (stop-and-wait ordering): for every buffer and every behaviour of the
peer and of `sendto`, in the trace of `rudp_send` the sequence numbers of the
transmitted packets never decrease, two transmissions with the same sequence
number are the same packet (a retransmission is identical to the original), and
no packet with sequence number `i + 1` is transmitted before `wait_ack` has
matched a received packet with `ack` set and `sequalNum == i`. -/
theorem rudp_send_stop_and_wait (MAX_SIZE : Nat) (malloc_ok : Bool) (data : List Byte)
    (env : List Round) :
    ((transmitted (rudp_send MAX_SIZE malloc_ok data env).events).map
        (fun p => p.sequalNum)).Pairwise (fun a b => a ≤ b) ∧
      (∀ p ∈ transmitted (rudp_send MAX_SIZE malloc_ok data env).events,
        ∀ q ∈ transmitted (rudp_send MAX_SIZE malloc_ok data env).events,
        p.sequalNum = q.sequalNum → p = q) ∧
      (∀ (pre : List Event) (q : RUDP_Packet) (post : List Event) (i : Nat),
        (rudp_send MAX_SIZE malloc_ok data env).events = pre ++ Event.tx q :: post →
        q.sequalNum = (i : Int) + 1 →
        ∃ a, Event.acked a ∈ pre ∧ a.flags.ack = true ∧ a.sequalNum = (i : Int)) := by
  obtain ⟨st, hst⟩ := sw_run_rudp_send MAX_SIZE malloc_ok data env
  have hinv : ∀ p : RUDP_Packet, (none : Option RUDP_Packet) = some p →
      p.sequalNum = ((0 : Nat) : Int) := fun p hp => by simp at hp
  refine ⟨(sw_sorted _ 0 none st hinv hst).2, ?_, ?_⟩
  · intro p hp q hq hpq
    exact chunks_seq_inj MAX_SIZE data p (rudp_send_tx_mem MAX_SIZE malloc_ok data env p hp)
      q (rudp_send_tx_mem MAX_SIZE malloc_ok data env q hq) hpq
  · intro pre q post i hev hq
    exact sw_acked_before _ 0 none st hinv hst pre q post i hev hq (Nat.zero_le i)

/-- C17, witness: a three-byte buffer with `MAX_SIZE = 2`; the first packet is
sent twice, the second is sent once and only after the acknowledgment of
sequence 0 was matched. -/
theorem rudp_send_stop_and_wait_witness :
    (rudp_send 2 true [1, 2, 3]
        [⟨true, [none]⟩, ack_round 2 (memset_zero 2), ⟨true, []⟩]).events
      = [Event.tx (full_chunk 2 [1, 2, 3] 1 1 0), Event.tx (full_chunk 2 [1, 2, 3] 1 1 0),
          Event.acked (ack_packet 2 (memset_zero 2))]
        ++ Event.tx (last_chunk 2 [1, 2, 3] 1 1) :: [] ∧
      ∃ a, Event.acked a ∈
          [Event.tx (full_chunk 2 [1, 2, 3] 1 1 0), Event.tx (full_chunk 2 [1, 2, 3] 1 1 0),
            Event.acked (ack_packet 2 (memset_zero 2))] ∧
        a.flags.ack = true ∧ a.sequalNum = ((0 : Nat) : Int) :=
  ⟨by decide, (rudp_send_stop_and_wait 2 true [1, 2, 3]
    [⟨true, [none]⟩, ack_round 2 (memset_zero 2), ⟨true, []⟩]).2.2
    [Event.tx (full_chunk 2 [1, 2, 3] 1 1 0), Event.tx (full_chunk 2 [1, 2, 3] 1 1 0),
      Event.acked (ack_packet 2 (memset_zero 2))]
    (last_chunk 2 [1, 2, 3] 1 1) [] 0 (by decide) (by decide)⟩

end RUDP
